import Mathlib

/-!
Verification development for the Socratic Tutoring Session Engine
(`backpack/graphs/tutor.py`, `backpack/graphs/tutor_models.py`,
`api/routers/tutor.py`).

The Python code is shallowly embedded:

* JSON values returned by the Generator capability are modelled by `JValue`;
  `json.loads` applied to the capability output is modelled by passing the
  decode result as an `Option JValue` (`none` = `json.JSONDecodeError`).
* Python exceptions are modelled by `PyError` and fallible code returns
  `Except PyError _`.  In CPython `json.JSONDecodeError` is a subclass of
  `ValueError`; the two are kept as separate constructors because
  `generate_starter_questions` catches only `json.JSONDecodeError` while
  `evaluate_and_route` catches `(json.JSONDecodeError, ValueError)`.
  A `pydantic` `ValidationError` is a subclass of `ValueError` and is
  modelled as `PyError.valueError`.
* Understanding scores are modelled as rationals; the only score literals the
  code compares against are the decimals 0.7 and 0.5, whose comparison
  behaviour is the same for `Float` and `Rat`.
* Wall-clock timestamps (`started_at`, `completed_at`, `timestamp`) are
  omitted from the state: no claim mentions them and they influence no
  control flow.
* Free-text message contents (welcome text, Socratic follow-ups, etc.) are
  carried verbatim where cheap and abbreviated where no claim depends on
  them; the message *structure* (AI turn followed by the learner's resumed
  turn) is kept because `evaluate_and_route` re-extracts the last learner
  message from it.
-/

-- ===========================================================================
-- JSON values and Python errors
-- ===========================================================================

/-- A parsed JSON value (result of `json.loads`).  Objects are modelled as
association lists of their final key/value pairs (CPython keeps the last
occurrence of a duplicate key, so the field list of a decoded object has
unique keys). -/
inductive JValue where
  | null : JValue
  | bool (b : Bool) : JValue
  | num (q : ℚ) : JValue
  | str (s : String) : JValue
  | arr (elems : List JValue) : JValue
  | obj (fields : List (String × JValue)) : JValue
deriving Repr

/-- Python exceptions relevant to the embedded code. -/
inductive PyError where
  | valueError (msg : String) : PyError
  | typeError (msg : String) : PyError
  | keyError (msg : String) : PyError
  | attributeError (msg : String) : PyError
  | indexError (msg : String) : PyError
  | jsonDecodeError (msg : String) : PyError
deriving Repr, DecidableEq

/-- `d.get(key, default)` on a decoded JSON value.  Only `dict` has `.get`;
on any other value Python raises `AttributeError`. -/
def jget (v : JValue) (key : String) (dflt : JValue) : Except PyError JValue :=
  match v with
  | .obj fields => .ok (((fields.lookup key).getD dflt))
  | _ => .error (.attributeError "object has no attribute get")

/-- Python `float(x)` on a decoded JSON value.  Numbers and booleans coerce;
strings are parsed (`ValueError` on failure); `None`, lists and dicts raise
`TypeError`.  The string grammar here covers plain signed decimals with an
optional fractional part (surrounding blanks stripped, as `float` does);
exponent forms, `inf` and `nan` are not needed by any theorem below. -/
def parseDecimalDigits (cs : List Char) : Option ℕ :=
  cs.foldl (fun acc c =>
    match acc with
    | none => none
    | some n => if c.isDigit then some (n * 10 + (c.toNat - 48)) else none)
    (some 0)

def parseDecimal (s : String) : Option ℚ :=
  let t := s.trim
  let (neg, body) :=
    if t.startsWith "-" then (true, t.drop 1)
    else if t.startsWith "+" then (false, t.drop 1) else (false, t)
  if body.isEmpty then none else
  match body.splitOn "." with
  | [intPart] =>
    (parseDecimalDigits intPart.data).map (fun n => if neg then -(n : ℚ) else (n : ℚ))
  | [intPart, fracPart] =>
    if intPart.isEmpty ∧ fracPart.isEmpty then none else
    match parseDecimalDigits intPart.data, parseDecimalDigits fracPart.data with
    | some n, some f =>
      let q : ℚ := (n : ℚ) + (f : ℚ) / ((10 : ℚ) ^ fracPart.length)
      some (if neg then -q else q)
    | _, _ => none
  | _ => none

def pyFloat (v : JValue) : Except PyError ℚ :=
  match v with
  | .num q => .ok q
  | .bool b => .ok (if b then 1 else 0)
  | .str s =>
    match parseDecimal s with
    | some q => .ok q
    | none => .error (.valueError "could not convert string to float")
  | _ => .error (.typeError "float argument must be a string or a number")

/-- `pydantic` validation of a `str` field (non-string input is rejected with
a `ValidationError`, which is a `ValueError`). -/
def jAsStr (v : JValue) : Except PyError String :=
  match v with
  | .str s => .ok s
  | _ => .error (.valueError "validation error: str expected")

/-- A Python loop that builds a list, stopping at the first raised
exception (the effect of `List.mapM` over `Except`, written recursively so
that theorems can induct on it directly). -/
def exceptMapM {α β : Type} (f : α → Except PyError β) : List α → Except PyError (List β)
  | [] => .ok []
  | a :: l => do
    let b ← f a
    let bs ← exceptMapM f l
    .ok (b :: bs)

/-- `pydantic` validation of a `List[str]` field. -/
def jAsStrList (v : JValue) : Except PyError (List String) :=
  match v with
  | .arr elems => exceptMapM jAsStr elems
  | _ => .error (.valueError "validation error: list of str expected")

/-- Python list slicing plus iteration (`questions_data[:5]`, `enumerate`):
requires a list; any other value errors out (in CPython a dict raises
`TypeError` on slicing and a string would yield characters that fail the
subsequent `.get` with `AttributeError`; both are modelled as `TypeError`
since no theorem distinguishes them). -/
def jAsList (v : JValue) : Except PyError (List JValue) :=
  match v with
  | .arr elems => .ok elems
  | _ => .error (.typeError "value is not a list")

-- ===========================================================================
-- tutor_models.py
-- ===========================================================================

/-- `StarterQuestion` (tutor_models.py).  `expected_depth` is a string
constrained to the `Literal` set at construction time. -/
structure StarterQuestion where
  index : ℕ
  question_text : String
  target_concepts : List String
  expected_depth : String
  resolved : Bool := false
  exchanges : ℕ := 0
deriving Repr, DecidableEq

/-- `UnderstandingPoint` (tutor_models.py), minus the wall-clock timestamp. -/
structure UnderstandingPoint where
  goal_id : String
  question_index : ℕ
  exchange_number : ℕ
  student_message : String
  understanding_score : ℚ
  evaluation_notes : String
  misconceptions : List String
  breakthroughs : List String
deriving Repr, DecidableEq

/-- `GoalProgress` (tutor_models.py), minus the wall-clock timestamps. -/
structure GoalProgress where
  goal_id : String
  goal_description : String
  completed : Bool := false
  starter_questions : List StarterQuestion := []
  current_question_index : ℕ := 0
  initial_understanding : Option ℚ := none
  final_understanding : Option ℚ := none
  trajectory : List UnderstandingPoint := []
deriving Repr, DecidableEq

/-- `GoalProgress.get_current_question`. -/
def GoalProgress.get_current_question (p : GoalProgress) : Option StarterQuestion :=
  if h : p.current_question_index < p.starter_questions.length then
    some (p.starter_questions.get ⟨p.current_question_index, h⟩)
  else none

/-- `GoalProgress.has_more_questions`: `current_question_index <
len(starter_questions) - 1` over Python ints, i.e. `index + 1 < length`. -/
def GoalProgress.has_more_questions (p : GoalProgress) : Bool :=
  p.current_question_index + 1 < p.starter_questions.length

/-- `GoalProgress.advance_to_next_question`: the mutated progress paired with
the returned question. -/
def GoalProgress.advance_to_next_question (p : GoalProgress) :
    GoalProgress × Option StarterQuestion :=
  if p.has_more_questions then
    let p' := { p with current_question_index := p.current_question_index + 1 }
    (p', p'.get_current_question)
  else (p, none)

/-- `EvaluationResult` (tutor_models.py). -/
structure EvaluationResult where
  score : ℚ
  evaluation_notes : String
  misconceptions : List String
  breakthroughs : List String
  is_resolved : Bool
deriving Repr, DecidableEq

/-- Constructing an `EvaluationResult(...)` runs pydantic validation of the
`ge=0.0, le=1.0` bounds on `score`; a violation raises `ValidationError`
(a `ValueError`). -/
def EvaluationResult.validate (score : ℚ) (notes : String)
    (misconceptions breakthroughs : List String) (is_resolved : Bool) :
    Except PyError EvaluationResult :=
  if 0 ≤ score ∧ score ≤ 1 then
    .ok ⟨score, notes, misconceptions, breakthroughs, is_resolved⟩
  else .error (.valueError "validation error: score out of range")

/-- `EvaluationResult.from_score` (tutor_models.py lines 170-186); the
default arguments are `notes=""`, `misconceptions=None`, `breakthroughs=None`
and `resolution_threshold=0.7`. -/
def EvaluationResult.from_score (score : ℚ) (notes : String)
    (misconceptions breakthroughs : List String) (resolution_threshold : ℚ) :
    Except PyError EvaluationResult :=
  EvaluationResult.validate score notes misconceptions breakthroughs
    (decide (resolution_threshold ≤ score))

/-- `from_score` with every optional argument left at its default. -/
def EvaluationResult.from_score_default (score : ℚ) (notes : String) :
    Except PyError EvaluationResult :=
  EvaluationResult.from_score score notes [] [] (Rat.divInt 7 10)

-- ===========================================================================
-- evaluate_and_route, parsing half (tutor.py lines 472-484)
-- ===========================================================================

/-- The `try` body of the evaluation parse: `parsed = json.loads(content)`
followed by the `EvaluationResult(...)` construction.  Argument expressions
(`parsed.get`, `float`) are evaluated before pydantic validation runs, in
source order. -/
def evaluationParseTry (content : Option JValue) : Except PyError EvaluationResult := do
  let parsed ← match content with
    | some v => Except.ok v
    | none => Except.error (.jsonDecodeError "Expecting value")
  let scoreJ ← jget parsed "score" (.num (Rat.divInt 1 2))
  let s ← pyFloat scoreJ
  let notesJ ← jget parsed "notes" (.str "")
  let miscJ ← jget parsed "misconceptions" (.arr [])
  let brkJ ← jget parsed "breakthroughs" (.arr [])
  let notes ← jAsStr notesJ
  let misconceptions ← jAsStrList miscJ
  let breakthroughs ← jAsStrList brkJ
  EvaluationResult.validate s notes misconceptions breakthroughs (decide (Rat.divInt 7 10 ≤ s))

/-- Lines 472-484 of tutor.py: the parse wrapped in
`except (json.JSONDecodeError, ValueError)` with the neutral
`from_score(0.5, "Evaluation parsing failed")` fallback.  Any other
exception (e.g. `TypeError` from `float(None)`) propagates. -/
def parse_evaluation (content : Option JValue) : Except PyError EvaluationResult :=
  match evaluationParseTry content with
  | .ok e => .ok e
  | .error (.jsonDecodeError _) =>
    EvaluationResult.from_score_default (Rat.divInt 1 2) "Evaluation parsing failed"
  | .error (.valueError _) =>
    EvaluationResult.from_score_default (Rat.divInt 1 2) "Evaluation parsing failed"
  | .error e => .error e

-- ===========================================================================
-- generate_starter_questions, parsing half (tutor.py lines 310-338)
-- ===========================================================================

/-- The canned question dict used when `json.loads` fails
(tutor.py lines 315-318). -/
def fallbackQuestionDict (goalDescription : String) : JValue :=
  .obj [("question_text",
          .str ("Can you explain what you understand about: " ++ goalDescription ++ "?")),
        ("target_concepts", .arr []),
        ("expected_depth", .str "understand")]

/-- One iteration of the question-construction loop (tutor.py lines 322-329):
`StarterQuestion(index=i, question_text=q.get("question_text", q.get("text",
"")), target_concepts=q.get("target_concepts", []),
expected_depth=q.get("expected_depth", "understand"))`, including pydantic
validation of the `Literal` depth values. -/
def mkStarterQuestion (i : ℕ) (q : JValue) : Except PyError StarterQuestion := do
  let innerDflt ← jget q "text" (.str "")
  let textJ ← jget q "question_text" innerDflt
  let tcJ ← jget q "target_concepts" (.arr [])
  let edJ ← jget q "expected_depth" (.str "understand")
  let text ← jAsStr textJ
  let tc ← jAsStrList tcJ
  let ed ← jAsStr edJ
  if ed ∈ (["recall", "understand", "apply", "analyze"] : List String) then
    .ok { index := i, question_text := text, target_concepts := tc, expected_depth := ed }
  else .error (.valueError "validation error: expected_depth")

/-- The question added by the `if not starter_questions` guard
(tutor.py lines 332-338). -/
def ensureQuestion (goalDescription : String) : StarterQuestion :=
  { index := 0,
    question_text := "What do you understand about: " ++ goalDescription ++ "?",
    target_concepts := [], expected_depth := "understand" }

/-- tutor.py lines 310-338: parse the Generator output, truncate to the first
5 entries, build `StarterQuestion`s, and ensure at least one question.
`content = none` is the `json.JSONDecodeError` branch; note that this
`except` clause catches only `json.JSONDecodeError`, so validation errors in
the question objects propagate. -/
def build_starter_questions (questionsData : List JValue) (goalDescription : String) :
    Except PyError (List StarterQuestion) := do
  let starter ← exceptMapM (fun iq => mkStarterQuestion iq.1 iq.2) (questionsData.take 5).enum
  if starter = [] then .ok [ensureQuestion goalDescription]
  else .ok starter

/-- `parsed.get("questions", [])` followed by the slice/enumerate pass
(tutor.py lines 313 and 322). -/
def questions_list (parsed : JValue) : Except PyError (List JValue) := do
  let qJ ← jget parsed "questions" (.arr [])
  jAsList qJ

def generate_questions_parse (content : Option JValue) (goalDescription : String) :
    Except PyError (List StarterQuestion) := do
  let questionsData ← match content with
    | none => Except.ok [fallbackQuestionDict goalDescription]
    | some parsed => questions_list parsed
  build_starter_questions questionsData goalDescription

-- ===========================================================================
-- Tutor graph state (tutor.py TutorState)
-- ===========================================================================

/-- A serialized learning goal as stored in `state["learning_goals"]`
(tutor.py lines 195-203). -/
structure Goal where
  id : String
  description : String
  mastery_criteria : String
  order : ℤ
deriving Repr, DecidableEq

/-- A chat turn (`AIMessage` / `HumanMessage`); only the role and content
matter to the embedded code. -/
structure Message where
  human : Bool
  content : String
deriving Repr, DecidableEq

def aiMsg (s : String) : Message := ⟨false, s⟩

def humanMsg (s : String) : Message := ⟨true, s⟩

/-- `TutorState` (tutor.py lines 53-81), restricted to the fields the claims
touch.  `goal_progress` is an association list because Python dicts preserve
insertion order; `module_context` / `goal_contexts` (retrieval caches) and
the metadata fields never influence the claims and are dropped. -/
structure TutorState where
  learning_goals : List Goal
  goal_progress : List (String × GoalProgress)
  completed_goal_ids : List String
  current_goal_id : Option String
  current_question : Option StarterQuestion
  latest_evaluation : Option EvaluationResult
  understanding_trajectory : List UnderstandingPoint
  messages : List Message
deriving Repr, DecidableEq

/-- In-place update of a dict entry (`goal_progress[gid] = ...`).  Every
assignment in the source happens on a key that is already present (it is
guarded by an `in` check or preceded by an indexed read that would raise
`KeyError`), so updating a missing key never occurs and is modelled as a
no-op. -/
def alUpdate (k : String) (v : GoalProgress) :
    List (String × GoalProgress) → List (String × GoalProgress)
  | [] => []
  | (k', v') :: rest =>
    if k' = k then (k', v) :: rest else (k', v') :: alUpdate k v rest

/-- The last `HumanMessage` content, or `""` when there is none
(tutor.py lines 425-430: scan `reversed(messages)` for the first human
turn). -/
def lastStudentMessage (msgs : List Message) : String :=
  match msgs.reverse.find? (fun m => m.human) with
  | some m => m.content
  | none => ""

-- ===========================================================================
-- Graph nodes (tutor.py)
-- ===========================================================================

/-- `initialize_session` (tutor.py lines 152-217): snapshot the goals, build
one fresh `GoalProgress` per goal, empty completion list, welcome message.
The context-building calls touch no claim-relevant state. -/
def initialize_session (goals : List Goal) (moduleName : String) : TutorState :=
  { learning_goals := goals,
    goal_progress :=
      goals.map (fun g => (g.id, { goal_id := g.id, goal_description := g.description })),
    completed_goal_ids := [],
    current_goal_id := none,
    current_question := none,
    latest_evaluation := none,
    understanding_trajectory := [],
    messages := [aiMsg ("Welcome! Let\x27s work through the learning goals for \x27" ++
      moduleName ++ "\x27. I\x27ll guide you through each concept using questions and discussion.")] }

/-- Python `min(goals, key=...)` keeps the first element attaining the
minimal key. -/
def pyMinBy (key : Goal → ℤ) : Goal → List Goal → Goal
  | best, [] => best
  | best, g :: rest => pyMinBy key (if key g < key best then g else best) rest

/-- `select_next_goal` (tutor.py lines 220-260).  Both branches of the
`if not completed_ids` conditional compute the same `min(unfinished_goals,
key=lambda g: g.get("order", 0))`, so they are embedded as one expression.
The `started_at` stamp on the selected goal is a dropped timestamp. -/
def select_next_goal (st : TutorState) : TutorState :=
  let unfinished := st.learning_goals.filter (fun g => g.id ∉ st.completed_goal_ids)
  match unfinished with
  | [] => { st with current_goal_id := none }
  | g :: rest =>
    let next := pyMinBy (fun g => g.order) g rest
    { st with
      current_goal_id := some next.id
      messages := st.messages ++
        [aiMsg ("Let\x27s focus on this learning goal: **" ++ next.description ++ "**")] }

/-- `generate_starter_questions` (tutor.py lines 263-354), with the
Generator output passed as its decoded JSON (`content`).  The goal lookup
raises `ValueError("Goal not found: ...")` when the current goal id is
absent (in particular `"Goal not found: None"` when no goal is selected);
the subsequent `goal_progress[current_goal_id]` read would raise `KeyError`
and `starter_questions[0]` would raise `IndexError` (the parse guarantees
non-emptiness, so that branch is unreachable). -/
def generate_starter_questions (content : Option JValue) (st : TutorState) :
    Except PyError TutorState := do
  let gid ← match st.current_goal_id with
    | some gid => Except.ok gid
    | none => Except.error (.valueError "Goal not found: None")
  let goal ← match st.learning_goals.find? (fun g => g.id = gid) with
    | some g => Except.ok g
    | none => Except.error (.valueError ("Goal not found: " ++ gid))
  let qs ← generate_questions_parse content goal.description
  let p ← match st.goal_progress.lookup gid with
    | some p => Except.ok p
    | none => Except.error (.keyError gid)
  let p' := { p with starter_questions := qs, current_question_index := 0 }
  let q0 ← match qs with
    | q :: _ => Except.ok q
    | [] => Except.error (.indexError "list index out of range")
  .ok { st with
        goal_progress := alUpdate gid p' st.goal_progress
        current_question := some q0 }

/-- `present_question` (tutor.py lines 357-405): raise when there is no
current question, otherwise emit the formatted question, suspend on
`interrupt`, and on resume append the AI turn and the learner's raw reply. -/
def present_question (resume : String) (st : TutorState) : Except PyError TutorState := do
  let q ← match st.current_question with
    | some q => Except.ok q
    | none => Except.error (.valueError "No current question to present")
  let header := "**Question " ++ toString (q.index + 1) ++ ":** " ++ q.question_text
  let message := if q.index = 0
    then header ++ "\n\nPlease share your thoughts and reasoning."
    else header
  .ok { st with messages := st.messages ++ [aiMsg message, humanMsg resume] }

/-- `socratic_response` (tutor.py lines 544-619): generate the follow-up
(`socraticText`, an opaque Generator output), suspend, and on resume append
both turns.  Building the interrupt payload reads
`current_question.get("exchanges", 0)`, which raises `AttributeError` when
`current_question` is `None`. -/
def socratic_response (socraticText resume : String) (st : TutorState) :
    Except PyError TutorState := do
  let _ ← match st.current_question with
    | some q => Except.ok q
    | none => Except.error (.attributeError "NoneType has no attribute get")
  .ok { st with messages := st.messages ++ [aiMsg socraticText, humanMsg resume] }

/-- The three `goto` targets of `evaluate_and_route`. -/
inductive Route where
  | socratic
  | advance
  | markComplete
deriving Repr, DecidableEq

/-- `UnderstandingPoint(...)` construction (tutor.py lines 487-497):
pydantic validates `goal_id: str` (a `None` id raises `ValidationError`)
and the score bounds. -/
def mkUnderstandingPoint (goalId : Option String) (questionIndex exchangeNumber : ℕ)
    (studentMessage : String) (ev : EvaluationResult) :
    Except PyError UnderstandingPoint :=
  match goalId with
  | none => .error (.valueError "validation error: goal_id")
  | some gid =>
    if 0 ≤ ev.score ∧ ev.score ≤ 1 then
      .ok { goal_id := gid
            question_index := questionIndex
            exchange_number := exchangeNumber
            student_message := studentMessage
            understanding_score := ev.score
            evaluation_notes := ev.evaluation_notes
            misconceptions := ev.misconceptions
            breakthroughs := ev.breakthroughs }
    else .error (.valueError "validation error: understanding_score")

/-- The state updates of `evaluate_and_route` (tutor.py lines 499-527):
append the point to the global trajectory and, when the active goal has a
progress entry, to the goal trajectory; set `initial_understanding` once and
`final_understanding` always; bump `exchanges` on the `current_question`
snapshot; record `latest_evaluation`. -/
def evalUpdatedState (ev : EvaluationResult) (point : UnderstandingPoint)
    (q : StarterQuestion) (st : TutorState) : TutorState :=
  { st with
    understanding_trajectory := st.understanding_trajectory ++ [point]
    latest_evaluation := some ev
    goal_progress :=
      match st.goal_progress.lookup point.goal_id with
      | some p =>
        alUpdate point.goal_id
          { p with
            trajectory := p.trajectory ++ [point]
            initial_understanding :=
              (match p.initial_understanding with
               | none => some ev.score
               | some v => some v)
            final_understanding := some ev.score }
          st.goal_progress
      | none => st.goal_progress
    current_question := some { q with exchanges := q.exchanges + 1 } }

/-- The state updates and routing decision of `evaluate_and_route` after the
evaluation `ev` has been obtained (tutor.py lines 486-541): apply
`evalUpdatedState`, then route on `is_resolved` / `has_more_questions()`
(the resolved branch re-reads `goal_progress_dict[current_goal_id]`, which
raises `KeyError` when the id has no entry). -/
def evaluate_route_after (ev : EvaluationResult) (studentMessage : String)
    (st : TutorState) : Except PyError (Route × TutorState) := do
  let q ← match st.current_question with
    | some q => Except.ok q
    | none => Except.error (.attributeError "NoneType has no attribute get")
  let point ← mkUnderstandingPoint st.current_goal_id q.index (q.exchanges + 1)
    studentMessage ev
  let st' := evalUpdatedState ev point q st
  if ev.is_resolved then do
    let p ← match st'.goal_progress.lookup point.goal_id with
      | some p => Except.ok p
      | none => Except.error (.keyError point.goal_id)
    if p.has_more_questions then .ok (.advance, st')
    else .ok (.markComplete, st')
  else .ok (.socratic, st')

/-- `evaluate_and_route` (tutor.py lines 408-541) with the Generator output
passed as its decoded JSON.  An empty (or absent) student message returns
early to the Socratic loop with a `from_score(0.0, "No response found")`
evaluation; otherwise the output is parsed by `parse_evaluation` and the
state is updated and routed by `evaluate_route_after`. -/
def evaluate_and_route (content : Option JValue) (st : TutorState) :
    Except PyError (Route × TutorState) := do
  let studentMessage := lastStudentMessage st.messages
  if studentMessage = "" then do
    let ev ← EvaluationResult.from_score_default 0 "No response found"
    .ok (.socratic, { st with latest_evaluation := some ev })
  else do
    let ev ← parse_evaluation content
    evaluate_route_after ev studentMessage st

/-- Mark the question at `current_question_index` resolved if the index is
in range (tutor.py lines 635-636 and 664-665). -/
def markCurrentResolved (p : GoalProgress) : GoalProgress :=
  if p.starter_questions ≠ [] ∧ p.current_question_index < p.starter_questions.length then
    { p with starter_questions :=
        match p.starter_questions.get? p.current_question_index with
        | some q => p.starter_questions.set p.current_question_index { q with resolved := true }
        | none => p.starter_questions }
  else p

/-- `advance_to_next_question` node (tutor.py lines 622-647): `ValueError`
when the current goal has no progress entry; otherwise mark the current
question resolved, advance the index, and install the next question as the
session-level snapshot. -/
def advance_to_next_question (st : TutorState) : Except PyError TutorState := do
  let gid ← match st.current_goal_id with
    | some gid => Except.ok gid
    | none => Except.error (.valueError "Goal progress not found")
  let p ← match st.goal_progress.lookup gid with
    | some p => Except.ok p
    | none => Except.error (.valueError "Goal progress not found")
  let p1 := markCurrentResolved p
  let (p2, nextQ) := p1.advance_to_next_question
  .ok { st with
        goal_progress := alUpdate gid p2 st.goal_progress
        current_question := nextQ
        messages := st.messages ++
          [aiMsg "Great progress! Let\x27s move on to the next question."] }

/-- `mark_goal_complete` (tutor.py lines 650-686) for an active goal `gid`
(`state["current_goal_id"]`, always a string whenever this node is reached):
set the completed flag and resolve the last question when the goal has a
progress entry, append the id to `completed_goal_ids` unless already
present, and clear `current_goal_id` / `current_question`. -/
def mark_goal_complete (gid : String) (st : TutorState) : TutorState :=
  let progress' := match st.goal_progress.lookup gid with
    | some p => alUpdate gid (markCurrentResolved { p with completed := true }) st.goal_progress
    | none => st.goal_progress
  let completed' := if gid ∈ st.completed_goal_ids then st.completed_goal_ids
    else st.completed_goal_ids ++ [gid]
  { st with
    goal_progress := progress'
    completed_goal_ids := completed'
    current_goal_id := none
    current_question := none
    messages := st.messages ++ [aiMsg "Excellent! Goal complete."] }

/-- `check_more_goals` (tutor.py lines 689-698): `true` means the
`"more_goals"` edge (back to `select_goal`), `false` the `"all_complete"`
edge (to `summary`). -/
def check_more_goals (st : TutorState) : Bool :=
  st.learning_goals.filter (fun g => g.id ∉ st.completed_goal_ids) ≠ []

-- ===========================================================================
-- Graph wiring (tutor.py build_tutor_graph, lines 843-885)
-- ===========================================================================

/-- The nodes of the compiled tutor graph that are reachable after
`initialize` (the `initialize` node itself runs exactly once, producing the
initial configuration below). -/
inductive GraphNode where
  | selectGoal
  | generateQuestions
  | presentQuestion
  | evaluate
  | socratic
  | advance
  | markComplete
  | summarize
  | done
deriving Repr, DecidableEq

/-- The `goto` target of an `evaluate` Command as a graph node. -/
def Route.node : Route → GraphNode
  | .socratic => .socratic
  | .advance => .advance
  | .markComplete => .markComplete

/-- A point of execution: the node about to run, and the current state. -/
def GraphConfig := GraphNode × TutorState

/-- One super-step of the compiled graph.  Node functions that raise have no
successor (the run errors out and the last checkpoint stands).  Generator /
learner inputs are existentially chosen at each step: `content` is the
decoded capability output, `resume` the learner reply delivered through the
`interrupt`, `socraticText` the follow-up text. -/
inductive GraphStep : GraphConfig → GraphConfig → Prop where
  | select (st : TutorState) :
      GraphStep (.selectGoal, st) (.generateQuestions, select_next_goal st)
  | genQuestions (content : Option JValue) (st st' : TutorState)
      (h : generate_starter_questions content st = .ok st') :
      GraphStep (.generateQuestions, st) (.presentQuestion, st')
  | present (resume : String) (st st' : TutorState)
      (h : present_question resume st = .ok st') :
      GraphStep (.presentQuestion, st) (.evaluate, st')
  | evaluate (content : Option JValue) (st st' : TutorState) (r : Route)
      (h : evaluate_and_route content st = .ok (r, st')) :
      GraphStep (.evaluate, st) (r.node, st')
  | socratic (socraticText resume : String) (st st' : TutorState)
      (h : socratic_response socraticText resume st = .ok st') :
      GraphStep (.socratic, st) (.evaluate, st')
  | advance (st st' : TutorState)
      (h : advance_to_next_question st = .ok st') :
      GraphStep (.advance, st) (.presentQuestion, st')
  | markComplete (gid : String) (st : TutorState)
      (h : st.current_goal_id = some gid) :
      GraphStep (.markComplete, st)
        ((if check_more_goals (mark_goal_complete gid st) then .selectGoal else .summarize),
         mark_goal_complete gid st)
  | summarize (st : TutorState) :
      GraphStep (.summarize, st) (.done, st)

/-- Configurations reachable in a session created on a module with goals
`goals`: the graph runs `initialize` and proceeds to `select_goal`. -/
def ReachableConfig (goals : List Goal) (moduleName : String) (c : GraphConfig) : Prop :=
  Relation.ReflTransGen GraphStep (.selectGoal, initialize_session goals moduleName) c

-- ===========================================================================
-- CreateSession (api/routers/tutor.py lines 160-223) with checkpointing
-- ===========================================================================

/-- `tutor_graph.invoke` on a fresh thread, as called by `create_session`:
run `initialize` → `select_goal` → `generate_questions` →
`present_question`, writing a checkpoint after every completed super-step
(`SqliteSaver`), until the `interrupt` inside `present_question` suspends
the run (or a node raises).  Returns the outcome of the call (the suspended
configuration, or the raised error) together with the last persisted
checkpoint, which the raising of an error does not roll back. -/
def run_create (goals : List Goal) (moduleName : String) (content : Option JValue) :
    Except PyError GraphConfig × Option GraphConfig :=
  let st0 := initialize_session goals moduleName
  let st1 := select_next_goal st0
  match generate_starter_questions content st1 with
  | .error e => (.error e, some (.generateQuestions, st1))
  | .ok st2 => (.ok (.presentQuestion, st2), some (.presentQuestion, st2))

-- ===========================================================================
-- Association-list lemmas for goal_progress updates
-- ===========================================================================

theorem alUpdate_keys (k : String) (v : GoalProgress) (l : List (String × GoalProgress)) :
    (alUpdate k v l).map Prod.fst = l.map Prod.fst := by
  induction l with
  | nil => rfl
  | cons hd tl ih =>
    obtain ⟨k', v'⟩ := hd
    by_cases h : k' = k <;> simp [alUpdate, h, ih]

theorem lookup_alUpdate_self (k : String) (v : GoalProgress)
    (l : List (String × GoalProgress)) :
    (alUpdate k v l).lookup k = (l.lookup k).map (fun _ => v) := by
  induction l with
  | nil => simp [alUpdate]
  | cons hd tl ih =>
    obtain ⟨k₀, v₀⟩ := hd
    by_cases h0 : k₀ = k
    · subst h0
      simp [alUpdate, List.lookup]
    · have hb : (k == k₀) = false := by simp [beq_iff_eq]; exact fun hh => h0 hh.symm
      simp [alUpdate, List.lookup, h0, hb, ih]

theorem lookup_alUpdate_ne (k k' : String) (v : GoalProgress)
    (l : List (String × GoalProgress)) (h : k' ≠ k) :
    (alUpdate k v l).lookup k' = l.lookup k' := by
  induction l with
  | nil => simp [alUpdate]
  | cons hd tl ih =>
    obtain ⟨k₀, v₀⟩ := hd
    by_cases h0 : k₀ = k
    · subst h0
      have hb : (k' == k₀) = false := by simp [beq_iff_eq, h]
      simp [alUpdate, List.lookup, hb]
    · by_cases h1 : k' = k₀
      · subst h1
        simp [alUpdate, List.lookup, h0]
      · have hb : (k' == k₀) = false := by simp [beq_iff_eq, h1]
        simp [alUpdate, List.lookup, h0, hb, ih]

theorem lookup_isSome_of_key_mem (k : String) (l : List (String × GoalProgress))
    (h : k ∈ l.map Prod.fst) : ∃ p, l.lookup k = some p := by
  induction l with
  | nil => simp at h
  | cons hd tl ih =>
    obtain ⟨k₀, v₀⟩ := hd
    by_cases h0 : k = k₀
    · subst h0
      exact ⟨v₀, by simp [List.lookup]⟩
    · simp only [List.map, List.mem_cons] at h
      rcases h with h | h
      · exact absurd h h0
      · obtain ⟨p, hp⟩ := ih h
        have hb : (k == k₀) = false := by simp [beq_iff_eq, h0]
        exact ⟨p, by simp [List.lookup, hb, hp]⟩

theorem key_mem_of_lookup_isSome (k : String) (l : List (String × GoalProgress))
    (p : GoalProgress) (h : l.lookup k = some p) : k ∈ l.map Prod.fst := by
  induction l with
  | nil => simp [List.lookup] at h
  | cons hd tl ih =>
    obtain ⟨k₀, v₀⟩ := hd
    by_cases h0 : k = k₀
    · simp [h0]
    · have hb0 : (k == k₀) = false := by simp [beq_iff_eq, h0]
      simp only [List.lookup, hb0] at h
      simp [ih h]

theorem lookup_mem (k : String) (l : List (String × GoalProgress)) (p : GoalProgress)
    (h : l.lookup k = some p) : (k, p) ∈ l := by
  induction l with
  | nil => simp [List.lookup] at h
  | cons hd tl ih =>
    obtain ⟨k₀, v₀⟩ := hd
    by_cases h0 : k = k₀
    · subst h0
      simp only [List.lookup, beq_self_eq_true] at h
      cases h
      exact List.mem_cons_self _ _
    · have hb : (k == k₀) = false := by simp [beq_iff_eq, h0]
      simp only [List.lookup, hb] at h
      exact List.mem_cons_of_mem _ (ih h)

theorem mem_alUpdate {k : String} {v : GoalProgress}
    {l : List (String × GoalProgress)} {e : String × GoalProgress}
    (h : e ∈ alUpdate k v l) : e ∈ l ∨ e = (k, v) := by
  induction l with
  | nil => simp [alUpdate] at h
  | cons hd tl ih =>
    obtain ⟨k₀, v₀⟩ := hd
    by_cases h0 : k₀ = k
    · subst h0
      simp only [alUpdate, if_pos rfl] at h
      rcases List.mem_cons.mp h with h | h
      · right
        exact h
      · left
        exact List.mem_cons_of_mem _ h
    · simp only [alUpdate, if_neg h0] at h
      rcases List.mem_cons.mp h with h | h
      · left
        simp [h]
      · rcases ih h with h | h
        · left
          exact List.mem_cons_of_mem _ h
        · right
          exact h

-- ===========================================================================
-- Shape lemmas for the evaluation parse
-- ===========================================================================

theorem EvaluationResult.validate_ok {s : ℚ} {n : String} {m b : List String}
    {r : Bool} {e : EvaluationResult}
    (h : EvaluationResult.validate s n m b r = .ok e) :
    e = ⟨s, n, m, b, r⟩ ∧ 0 ≤ s ∧ s ≤ 1 := by
  unfold EvaluationResult.validate at h
  split at h
  · next hb => exact ⟨by cases h; rfl, hb.1, hb.2⟩
  · cases h

theorem bind_ok_iff {α β : Type} {e : Except PyError α} {f : α → Except PyError β}
    {b : β} : (e >>= f) = .ok b ↔ ∃ a, e = .ok a ∧ f a = .ok b := by
  cases e <;> simp [Bind.bind, Except.bind]

/-- The decimal literals 0.7 and 0.5 of the source, written with
`Rat.divInt` so that they evaluate definitionally; they denote the same
rationals as `7 / 10` and `1 / 2`. -/
theorem divInt_7_10 : Rat.divInt 7 10 = (7 : ℚ) / 10 := by norm_num [Rat.divInt]

theorem divInt_1_2 : Rat.divInt 1 2 = (1 : ℚ) / 2 := by norm_num [Rat.divInt]

theorem evaluationParseTry_ok_shape {content : Option JValue} {e : EvaluationResult}
    (h : evaluationParseTry content = .ok e) :
    e.is_resolved = decide ((7 : ℚ) / 10 ≤ e.score) ∧ 0 ≤ e.score ∧ e.score ≤ 1 := by
  unfold evaluationParseTry at h
  cases content with
  | none =>
    dsimp only at h
    obtain ⟨a, ha, -⟩ := bind_ok_iff.mp h
    cases ha
  | some parsed =>
  dsimp only at h
  obtain ⟨a, ha, h⟩ := bind_ok_iff.mp h
  cases ha
  obtain ⟨scoreJ, -, h⟩ := bind_ok_iff.mp h
  obtain ⟨s, -, h⟩ := bind_ok_iff.mp h
  obtain ⟨notesJ, -, h⟩ := bind_ok_iff.mp h
  obtain ⟨miscJ, -, h⟩ := bind_ok_iff.mp h
  obtain ⟨brkJ, -, h⟩ := bind_ok_iff.mp h
  obtain ⟨notes, -, h⟩ := bind_ok_iff.mp h
  obtain ⟨misc, -, h⟩ := bind_ok_iff.mp h
  obtain ⟨brk, -, h⟩ := bind_ok_iff.mp h
  obtain ⟨he, h0, h1⟩ := EvaluationResult.validate_ok h
  subst he
  refine ⟨?_, h0, h1⟩
  show decide (Rat.divInt 7 10 ≤ s) = decide ((7 : ℚ) / 10 ≤ s)
  rw [divInt_7_10]

-- ===========================================================================
-- exceptMapM lemmas
-- ===========================================================================

theorem exceptMapM_ok_length {α β : Type} {f : α → Except PyError β}
    {l : List α} {out : List β} (h : exceptMapM f l = .ok out) :
    out.length = l.length := by
  induction l generalizing out with
  | nil => cases h; rfl
  | cons a t ih =>
    unfold exceptMapM at h
    obtain ⟨b, hb, h⟩ := bind_ok_iff.mp h
    obtain ⟨bs, hbs, h⟩ := bind_ok_iff.mp h
    cases h
    simp [ih hbs]

theorem exceptMapM_ok_mem {α β : Type} {f : α → Except PyError β}
    {l : List α} {out : List β} (h : exceptMapM f l = .ok out) :
    ∀ y ∈ out, ∃ x ∈ l, f x = .ok y := by
  induction l generalizing out with
  | nil => cases h; simp
  | cons a t ih =>
    unfold exceptMapM at h
    obtain ⟨b, hb, h⟩ := bind_ok_iff.mp h
    obtain ⟨bs, hbs, h⟩ := bind_ok_iff.mp h
    cases h
    intro y hy
    rcases List.mem_cons.mp hy with hy | hy
    · exact ⟨a, List.mem_cons_self a t, hy ▸ hb⟩
    · obtain ⟨x, hx, hfx⟩ := ih hbs y hy
      exact ⟨x, List.mem_cons_of_mem a hx, hfx⟩

theorem exceptMapM_ok_get {α β : Type} {f : α → Except PyError β}
    {l : List α} {out : List β} (h : exceptMapM f l = .ok out) :
    ∀ i (hi : i < l.length) (ho : i < out.length),
      f (l.get ⟨i, hi⟩) = .ok (out.get ⟨i, ho⟩) := by
  induction l generalizing out with
  | nil => intro i hi; simp at hi
  | cons a t ih =>
    unfold exceptMapM at h
    obtain ⟨b, hb, h⟩ := bind_ok_iff.mp h
    obtain ⟨bs, hbs, h⟩ := bind_ok_iff.mp h
    cases h
    intro i hi ho
    match i with
    | 0 => exact hb
    | Nat.succ j => exact ih hbs j (Nat.lt_of_succ_lt_succ hi) (Nat.lt_of_succ_lt_succ ho)

-- ===========================================================================
-- Shape lemmas for generate_questions_parse
-- ===========================================================================

theorem mkStarterQuestion_ok_shape {i : ℕ} {q : JValue} {sq : StarterQuestion}
    (h : mkStarterQuestion i q = .ok sq) :
    sq.index = i ∧ sq.resolved = false ∧ sq.exchanges = 0 := by
  unfold mkStarterQuestion at h
  obtain ⟨innerDflt, -, h⟩ := bind_ok_iff.mp h
  obtain ⟨textJ, -, h⟩ := bind_ok_iff.mp h
  obtain ⟨tcJ, -, h⟩ := bind_ok_iff.mp h
  obtain ⟨edJ, -, h⟩ := bind_ok_iff.mp h
  obtain ⟨text, -, h⟩ := bind_ok_iff.mp h
  obtain ⟨tc, -, h⟩ := bind_ok_iff.mp h
  obtain ⟨ed, -, h⟩ := bind_ok_iff.mp h
  split at h
  · cases h; exact ⟨rfl, rfl, rfl⟩
  · cases h

/-- The single `StarterQuestion` produced from the `json.JSONDecodeError`
fallback dict. -/
def fallbackStarterQuestion (goalDescription : String) : StarterQuestion :=
  { index := 0
    question_text := "Can you explain what you understand about: " ++ goalDescription ++ "?"
    target_concepts := []
    expected_depth := "understand" }

theorem generate_questions_parse_none (goalDescription : String) :
    generate_questions_parse none goalDescription =
      .ok [fallbackStarterQuestion goalDescription] := by
  rfl

theorem generate_questions_parse_ok_shape {content : Option JValue}
    {goalDescription : String} {qs : List StarterQuestion}
    (h : generate_questions_parse content goalDescription = .ok qs) :
    qs ≠ [] ∧ qs.length ≤ 5 ∧
      ∀ q ∈ qs, q.resolved = false ∧ q.exchanges = 0 := by
  unfold generate_questions_parse at h
  have hb : ∃ questionsData,
      build_starter_questions questionsData goalDescription = .ok qs := by
    cases content with
    | none =>
      dsimp only at h
      obtain ⟨a, ha, h⟩ := bind_ok_iff.mp h
      cases ha
      exact ⟨_, h⟩
    | some parsed =>
      dsimp only at h
      obtain ⟨a, -, h⟩ := bind_ok_iff.mp h
      exact ⟨a, h⟩
  obtain ⟨questionsData, h⟩ := hb
  unfold build_starter_questions at h
  obtain ⟨starter, hst, h⟩ := bind_ok_iff.mp h
  have hlen : starter.length = (questionsData.take 5).length := by
    have h1 := exceptMapM_ok_length hst
    simpa using h1
  have hmem : ∀ q ∈ starter, q.resolved = false ∧ q.exchanges = 0 := by
    intro q hq
    obtain ⟨iq, -, hs⟩ := exceptMapM_ok_mem hst q hq
    obtain ⟨-, hr, he⟩ := mkStarterQuestion_ok_shape hs
    exact ⟨hr, he⟩
  split at h
  · cases h
    refine ⟨by simp, by simp, ?_⟩
    intro q hq
    simp only [List.mem_singleton] at hq
    subst hq
    exact ⟨rfl, rfl⟩
  · cases h
    refine ⟨by assumption, ?_, hmem⟩
    rw [hlen, List.length_take]
    exact min_le_left _ _

-- ===========================================================================
-- Frame lemmas for the graph nodes
-- ===========================================================================

/-- The fields of a `GoalProgress` entry that `evaluate_and_route` never
touches. -/
def progress_frame (p p' : GoalProgress) : Prop :=
  p'.goal_id = p.goal_id ∧ p'.completed = p.completed ∧
  p'.starter_questions = p.starter_questions ∧
  p'.current_question_index = p.current_question_index

theorem evalUpdatedState_frame (ev : EvaluationResult) (point : UnderstandingPoint)
    (q : StarterQuestion) (st : TutorState) :
    (evalUpdatedState ev point q st).goal_progress.map Prod.fst =
        st.goal_progress.map Prod.fst ∧
      ∀ gid p', (evalUpdatedState ev point q st).goal_progress.lookup gid = some p' →
        ∃ p, st.goal_progress.lookup gid = some p ∧ progress_frame p p' := by
  unfold evalUpdatedState
  cases hl : st.goal_progress.lookup point.goal_id with
  | none =>
    exact ⟨rfl, fun gid p' hp' => ⟨p', hp', rfl, rfl, rfl, rfl⟩⟩
  | some p =>
    constructor
    · exact alUpdate_keys _ _ _
    · intro gid p' hp'
      by_cases hgid : gid = point.goal_id
      · subst hgid
        rw [lookup_alUpdate_self, hl] at hp'
        cases hp'
        exact ⟨p, hl, rfl, rfl, rfl, rfl⟩
      · rw [lookup_alUpdate_ne _ _ _ _ hgid] at hp'
        exact ⟨p', hp', rfl, rfl, rfl, rfl⟩

theorem evalUpdatedState_mem_questions (ev : EvaluationResult)
    (point : UnderstandingPoint) (q : StarterQuestion) (st : TutorState) :
    ∀ e ∈ (evalUpdatedState ev point q st).goal_progress,
      ∃ e0, e0 ∈ st.goal_progress ∧
        (e.2 : GoalProgress).starter_questions = (e0.2 : GoalProgress).starter_questions := by
  unfold evalUpdatedState
  dsimp only
  cases hl : st.goal_progress.lookup point.goal_id with
  | none => exact fun e he => ⟨e, he, rfl⟩
  | some p =>
    intro e he
    rcases mem_alUpdate he with he | he
    · exact ⟨e, he, rfl⟩
    · subst he
      exact ⟨(point.goal_id, p), lookup_mem _ _ _ hl, rfl⟩

theorem evaluate_route_after_ok {ev : EvaluationResult} {m : String}
    {st : TutorState} {r : Route} {st' : TutorState}
    (h : evaluate_route_after ev m st = .ok (r, st')) :
    ∃ q point, st.current_question = some q ∧
      mkUnderstandingPoint st.current_goal_id q.index (q.exchanges + 1) m ev = .ok point ∧
      st' = evalUpdatedState ev point q st ∧
      (ev.is_resolved = false → r = .socratic) ∧
      (ev.is_resolved = true →
        ∃ p', (evalUpdatedState ev point q st).goal_progress.lookup point.goal_id =
            some p' ∧
          r = if p'.has_more_questions then .advance else .markComplete) := by
  unfold evaluate_route_after at h
  cases hcq : st.current_question with
  | none =>
    rw [hcq] at h
    dsimp only at h
    obtain ⟨a, ha, -⟩ := bind_ok_iff.mp h
    cases ha
  | some q =>
    rw [hcq] at h
    dsimp only at h
    obtain ⟨a, ha, h⟩ := bind_ok_iff.mp h
    cases ha
    obtain ⟨point, hpoint, h⟩ := bind_ok_iff.mp h
    refine ⟨q, point, rfl, hpoint, ?_⟩
    split at h
    case isTrue hres =>
      split at h
      case h_1 p hp =>
        obtain ⟨p0, hp0, h⟩ := bind_ok_iff.mp h
        cases hp0
        split at h
        case isTrue hmore =>
          cases h
          exact ⟨rfl, (fun hf => by rw [hres] at hf; cases hf),
            fun _ => ⟨p, hp, by rw [if_pos hmore]⟩⟩
        case isFalse hmore =>
          cases h
          refine ⟨rfl, (fun hf => by rw [hres] at hf; cases hf),
            fun _ => ⟨p, hp, ?_⟩⟩
          rw [if_neg hmore]
      case h_2 hp =>
        obtain ⟨p0, hp0, -⟩ := bind_ok_iff.mp h
        cases hp0
    case isFalse hres =>
      cases h
      refine ⟨rfl, (fun _ => rfl), fun ht => ?_⟩
      rw [ht] at hres
      exact absurd rfl hres

theorem evaluate_and_route_ok {content : Option JValue} {st : TutorState}
    {r : Route} {st' : TutorState}
    (h : evaluate_and_route content st = .ok (r, st')) :
    (lastStudentMessage st.messages = "" ∧ r = .socratic ∧
      ∃ ev, EvaluationResult.from_score_default 0 "No response found" = .ok ev ∧
        st' = { st with latest_evaluation := some ev }) ∨
    (lastStudentMessage st.messages ≠ "" ∧
      ∃ ev, parse_evaluation content = .ok ev ∧
        evaluate_route_after ev (lastStudentMessage st.messages) st = .ok (r, st')) := by
  unfold evaluate_and_route at h
  dsimp only at h
  split at h
  · left
    obtain ⟨ev, hev, h⟩ := bind_ok_iff.mp h
    cases h
    exact ⟨by assumption, rfl, ev, hev, rfl⟩
  · right
    obtain ⟨ev, hev, h⟩ := bind_ok_iff.mp h
    exact ⟨by assumption, ev, hev, h⟩

theorem pyMinBy_mem (key : Goal → ℤ) (g : Goal) (t : List Goal) :
    pyMinBy key g t ∈ g :: t := by
  induction t generalizing g with
  | nil => simp [pyMinBy]
  | cons x t' ih =>
    unfold pyMinBy
    by_cases hx : key x < key g
    · rw [if_pos hx]
      rcases List.mem_cons.mp (ih x) with h | h
      · simp [h]
      · simp [List.mem_cons_of_mem, h]
    · rw [if_neg hx]
      rcases List.mem_cons.mp (ih g) with h | h
      · simp [h]
      · simp [List.mem_cons_of_mem, h]

-- ===========================================================================
-- The session invariant (claims C2, C6, C10)
-- ===========================================================================

/-- State-level invariant maintained by every graph transition. -/
structure TutorInv (st : TutorState) : Prop where
  keys_eq : st.goal_progress.map Prod.fst = st.learning_goals.map Goal.id
  nodup : st.completed_goal_ids.Nodup
  completed_iff : ∀ gid p, st.goal_progress.lookup gid = some p →
    (p.completed = true ↔ gid ∈ st.completed_goal_ids)
  completed_key : ∀ gid ∈ st.completed_goal_ids, gid ∈ st.goal_progress.map Prod.fst
  cur_key : ∀ gid, st.current_goal_id = some gid → gid ∈ st.goal_progress.map Prod.fst
  cur_not_completed : ∀ gid, st.current_goal_id = some gid →
    gid ∉ st.completed_goal_ids
  exchanges_zero : ∀ e ∈ st.goal_progress, ∀ q ∈ e.2.starter_questions,
    q.exchanges = 0

theorem inv_congr {st st' : TutorState}
    (hgp : st'.goal_progress = st.goal_progress)
    (hc : st'.completed_goal_ids = st.completed_goal_ids)
    (hcg : st'.current_goal_id = st.current_goal_id)
    (hlg : st'.learning_goals = st.learning_goals)
    (h : TutorInv st) : TutorInv st' := by
  refine ⟨?_, ?_, ?_, ?_, ?_, ?_, ?_⟩ <;> simp only [hgp, hc, hcg, hlg] <;> first
    | exact h.keys_eq | exact h.nodup | exact h.completed_iff | exact h.completed_key
    | exact h.cur_key | exact h.cur_not_completed | exact h.exchanges_zero

theorem lookup_init_progress (goals : List Goal) (gid : String) (p : GoalProgress)
    (h : (goals.map (fun g =>
        (g.id, ({ goal_id := g.id, goal_description := g.description } : GoalProgress)))).lookup
        gid = some p) :
    p.completed = false ∧ p.starter_questions = [] := by
  induction goals with
  | nil => simp [List.lookup] at h
  | cons g t ih =>
    by_cases hg : gid = g.id
    · subst hg
      simp only [List.map, List.lookup, beq_self_eq_true] at h
      cases h
      exact ⟨rfl, rfl⟩
    · have hb : (gid == g.id) = false := by simp [beq_iff_eq, hg]
      simp only [List.map, List.lookup, hb] at h
      exact ih h

theorem inv_initialize (goals : List Goal) (moduleName : String) :
    TutorInv (initialize_session goals moduleName) := by
  refine ⟨?_, ?_, ?_, ?_, ?_, ?_, ?_⟩
  · simp [initialize_session]
  · simp [initialize_session]
  · intro gid p hp
    simp only [initialize_session] at hp ⊢
    rw [(lookup_init_progress goals gid p hp).1]
    simp
  · simp [initialize_session]
  · simp [initialize_session]
  · simp [initialize_session]
  · intro e he q hq
    simp only [initialize_session] at he
    obtain ⟨g, -, hg⟩ := List.mem_map.mp he
    rw [← hg] at hq
    simp at hq

theorem present_question_ok {resume : String} {st st' : TutorState}
    (h : present_question resume st = .ok st') :
    ∃ m, st' = { st with messages := st.messages ++ [aiMsg m, humanMsg resume] } := by
  unfold present_question at h
  cases hcq : st.current_question with
  | none => rw [hcq] at h; dsimp only at h; obtain ⟨a, ha, -⟩ := bind_ok_iff.mp h; cases ha
  | some q =>
    rw [hcq] at h
    dsimp only at h
    obtain ⟨a, ha, h⟩ := bind_ok_iff.mp h
    cases ha
    cases h
    exact ⟨_, rfl⟩

theorem socratic_response_ok {socraticText resume : String} {st st' : TutorState}
    (h : socratic_response socraticText resume st = .ok st') :
    st' = { st with messages := st.messages ++ [aiMsg socraticText, humanMsg resume] } := by
  unfold socratic_response at h
  cases hcq : st.current_question with
  | none => rw [hcq] at h; dsimp only at h; obtain ⟨a, ha, -⟩ := bind_ok_iff.mp h; cases ha
  | some q =>
    rw [hcq] at h
    dsimp only at h
    obtain ⟨a, ha, h⟩ := bind_ok_iff.mp h
    cases ha
    cases h
    rfl

theorem generate_starter_questions_ok {content : Option JValue} {st st' : TutorState}
    (h : generate_starter_questions content st = .ok st') :
    ∃ gid goal qs p q0 rest,
      st.current_goal_id = some gid ∧
      st.learning_goals.find? (fun g => g.id = gid) = some goal ∧
      generate_questions_parse content goal.description = .ok qs ∧
      st.goal_progress.lookup gid = some p ∧
      qs = q0 :: rest ∧
      st' = { st with
              goal_progress :=
                alUpdate gid
                  { p with starter_questions := qs, current_question_index := 0 }
                  st.goal_progress
              current_question := some q0 } := by
  unfold generate_starter_questions at h
  cases hcg : st.current_goal_id with
  | none => rw [hcg] at h; dsimp only at h; obtain ⟨a, ha, -⟩ := bind_ok_iff.mp h; cases ha
  | some gid =>
    rw [hcg] at h
    dsimp only at h
    obtain ⟨a, ha, h⟩ := bind_ok_iff.mp h
    cases ha
    cases hfind : st.learning_goals.find? (fun g => g.id = gid) with
    | none => rw [hfind] at h; dsimp only at h; obtain ⟨a, ha, -⟩ := bind_ok_iff.mp h; cases ha
    | some goal =>
      rw [hfind] at h
      dsimp only at h
      obtain ⟨a, ha, h⟩ := bind_ok_iff.mp h
      cases ha
      obtain ⟨qs, hqs, h⟩ := bind_ok_iff.mp h
      cases hlk : st.goal_progress.lookup gid with
      | none => rw [hlk] at h; dsimp only at h; obtain ⟨a, ha, -⟩ := bind_ok_iff.mp h; cases ha
      | some p =>
        rw [hlk] at h
        dsimp only at h
        obtain ⟨a, ha, h⟩ := bind_ok_iff.mp h
        cases ha
        cases hq0 : qs with
        | nil => rw [hq0] at h; dsimp only at h; obtain ⟨a, ha, -⟩ := bind_ok_iff.mp h; cases ha
        | cons q0 rest =>
          rw [hq0] at h
          dsimp only at h
          obtain ⟨a, ha, h⟩ := bind_ok_iff.mp h
          cases ha
          cases h
          exact ⟨gid, goal, qs, p, q0, rest, rfl, hfind, hqs, hlk, hq0, by rw [hq0]⟩

theorem advance_to_next_question_ok {st st' : TutorState}
    (h : advance_to_next_question st = .ok st') :
    ∃ gid p,
      st.current_goal_id = some gid ∧
      st.goal_progress.lookup gid = some p ∧
      st' = { st with
              goal_progress :=
                alUpdate gid ((markCurrentResolved p).advance_to_next_question).1
                  st.goal_progress
              current_question := ((markCurrentResolved p).advance_to_next_question).2
              messages := st.messages ++
                [aiMsg "Great progress! Let\x27s move on to the next question."] } := by
  unfold advance_to_next_question at h
  cases hcg : st.current_goal_id with
  | none => rw [hcg] at h; dsimp only at h; obtain ⟨a, ha, -⟩ := bind_ok_iff.mp h; cases ha
  | some gid =>
    rw [hcg] at h
    dsimp only at h
    obtain ⟨a, ha, h⟩ := bind_ok_iff.mp h
    cases ha
    cases hlk : st.goal_progress.lookup gid with
    | none => rw [hlk] at h; dsimp only at h; obtain ⟨a, ha, -⟩ := bind_ok_iff.mp h; cases ha
    | some p =>
      rw [hlk] at h
      dsimp only at h
      obtain ⟨a, ha, h⟩ := bind_ok_iff.mp h
      cases ha
      refine ⟨gid, p, rfl, hlk, ?_⟩
      cases hadv : (markCurrentResolved p).advance_to_next_question with
      | mk p2 nextQ =>
        rw [hadv] at h
        cases h
        simp [hadv]

theorem markCurrentResolved_completed (p : GoalProgress) :
    (markCurrentResolved p).completed = p.completed := by
  unfold markCurrentResolved
  split <;> rfl

theorem markCurrentResolved_index (p : GoalProgress) :
    (markCurrentResolved p).current_question_index = p.current_question_index := by
  unfold markCurrentResolved
  split <;> rfl

theorem markCurrentResolved_questions_exchanges (p : GoalProgress) :
    ∀ q' ∈ (markCurrentResolved p).starter_questions,
      ∃ q ∈ p.starter_questions, q'.exchanges = q.exchanges := by
  intro q' hq'
  unfold markCurrentResolved at hq'
  by_cases hcond : p.starter_questions ≠ [] ∧
      p.current_question_index < p.starter_questions.length
  · rw [if_pos hcond] at hq'
    cases hget : p.starter_questions.get? p.current_question_index with
    | none => rw [hget] at hq'; exact ⟨q', hq', rfl⟩
    | some q =>
      rw [hget] at hq'
      dsimp only at hq'
      rcases List.mem_or_eq_of_mem_set hq' with h | h
      · exact ⟨q', h, rfl⟩
      · subst h
        exact ⟨q, List.get?_mem hget, rfl⟩
  · rw [if_neg hcond] at hq'
    exact ⟨q', hq', rfl⟩

theorem advance_progress_frame (p : GoalProgress) :
    ((p.advance_to_next_question).1.completed = p.completed) ∧
    ((p.advance_to_next_question).1.starter_questions = p.starter_questions) := by
  unfold GoalProgress.advance_to_next_question
  split <;> exact ⟨rfl, rfl⟩

theorem inv_select (st : TutorState) (h : TutorInv st) :
    TutorInv (select_next_goal st) := by
  unfold select_next_goal
  cases hu : st.learning_goals.filter (fun g => g.id ∉ st.completed_goal_ids) with
  | nil =>
    exact ⟨h.keys_eq, h.nodup, h.completed_iff, h.completed_key,
      (by intro gid hg; cases hg), (by intro gid hg; cases hg), h.exchanges_zero⟩
  | cons g rest =>
    have hmem : pyMinBy (fun g => g.order) g rest ∈
        st.learning_goals.filter (fun g => g.id ∉ st.completed_goal_ids) := by
      rw [hu]; exact pyMinBy_mem _ g rest
    have hmem' := List.mem_filter.mp hmem
    refine ⟨h.keys_eq, h.nodup, h.completed_iff, h.completed_key, ?_, ?_, h.exchanges_zero⟩
    · intro gid hg
      cases hg
      rw [h.keys_eq]
      exact List.mem_map_of_mem Goal.id hmem'.1
    · intro gid hg
      cases hg
      simpa using hmem'.2

theorem inv_generate {content : Option JValue} {st st' : TutorState}
    (h : generate_starter_questions content st = .ok st') (hinv : TutorInv st) :
    TutorInv st' := by
  obtain ⟨gid, goal, qs, p, q0, rest, hcg, hfind, hqs, hlk, hq0, hst'⟩ :=
    generate_starter_questions_ok h
  subst hst'
  obtain ⟨-, -, hq0ex⟩ := generate_questions_parse_ok_shape hqs
  refine ⟨?_, hinv.nodup, ?_, ?_, ?_, ?_, ?_⟩
  · show (alUpdate gid _ st.goal_progress).map Prod.fst = _
    rw [alUpdate_keys]
    exact hinv.keys_eq
  · intro gid' pp hpp
    by_cases hg : gid' = gid
    · subst hg
      rw [lookup_alUpdate_self, hlk] at hpp
      simp only [Option.map_some'] at hpp
      cases hpp
      exact hinv.completed_iff gid' p hlk
    · rw [lookup_alUpdate_ne _ _ _ _ hg] at hpp
      exact hinv.completed_iff gid' pp hpp
  · intro gid' hg
    have := hinv.completed_key gid' hg
    rwa [alUpdate_keys]
  · intro gid' hg
    have := hinv.cur_key gid' hg
    rwa [alUpdate_keys]
  · exact hinv.cur_not_completed
  · intro e he q hq
    rcases mem_alUpdate he with he | he
    · exact hinv.exchanges_zero e he q hq
    · subst he
      exact (hq0ex q hq).2

theorem inv_evaluate {content : Option JValue} {st : TutorState} {r : Route}
    {st' : TutorState} (h : evaluate_and_route content st = .ok (r, st'))
    (hinv : TutorInv st) : TutorInv st' := by
  rcases evaluate_and_route_ok h with ⟨-, -, ev, -, hst'⟩ | ⟨-, ev, -, hafter⟩
  · subst hst'
    refine inv_congr ?_ ?_ ?_ ?_ hinv <;> rfl
  · obtain ⟨q, point, hq, hpoint, hst', -, -⟩ := evaluate_route_after_ok hafter
    subst hst'
    obtain ⟨hkeys, hframe⟩ := evalUpdatedState_frame ev point q st
    refine ⟨hkeys.trans hinv.keys_eq, hinv.nodup, ?_, ?_, ?_,
      hinv.cur_not_completed, ?_⟩
    · intro gid pp hpp
      obtain ⟨p, hp, hf⟩ := hframe gid pp hpp
      rw [hf.2.1]
      exact hinv.completed_iff gid p hp
    · intro gid hg
      rw [hkeys]
      exact hinv.completed_key gid hg
    · intro gid hg
      rw [hkeys]
      exact hinv.cur_key gid hg
    · intro e he q' hq'
      obtain ⟨e0, he0, heq⟩ := evalUpdatedState_mem_questions ev point q st e he
      rw [heq] at hq'
      exact hinv.exchanges_zero e0 he0 q' hq'

theorem inv_advance {st st' : TutorState}
    (h : advance_to_next_question st = .ok st') (hinv : TutorInv st) :
    TutorInv st' := by
  obtain ⟨gid, p, hcg, hlk, hst'⟩ := advance_to_next_question_ok h
  subst hst'
  have hcomp : ((markCurrentResolved p).advance_to_next_question).1.completed =
      p.completed :=
    (advance_progress_frame _).1.trans (markCurrentResolved_completed p)
  have hquest : ∀ q' ∈ ((markCurrentResolved p).advance_to_next_question).1.starter_questions,
      ∃ q ∈ p.starter_questions, q'.exchanges = q.exchanges := by
    intro q' hq'
    rw [(advance_progress_frame _).2] at hq'
    exact markCurrentResolved_questions_exchanges p q' hq'
  refine ⟨?_, hinv.nodup, ?_, ?_, ?_, hinv.cur_not_completed, ?_⟩
  · show (alUpdate gid _ st.goal_progress).map Prod.fst = _
    rw [alUpdate_keys]
    exact hinv.keys_eq
  · intro gid' pp hpp
    by_cases hg : gid' = gid
    · subst hg
      rw [lookup_alUpdate_self, hlk] at hpp
      simp only [Option.map_some'] at hpp
      cases hpp
      rw [hcomp]
      exact hinv.completed_iff gid' p hlk
    · rw [lookup_alUpdate_ne _ _ _ _ hg] at hpp
      exact hinv.completed_iff gid' pp hpp
  · intro gid' hg
    have := hinv.completed_key gid' hg
    rwa [alUpdate_keys]
  · intro gid' hg
    have := hinv.cur_key gid' hg
    rwa [alUpdate_keys]
  · intro e he q' hq'
    rcases mem_alUpdate he with he | he
    · exact hinv.exchanges_zero e he q' hq'
    · subst he
      obtain ⟨q2, hq2mem, hq2e⟩ := hquest q' hq'
      rw [hq2e]
      exact hinv.exchanges_zero (gid, p) (lookup_mem _ _ _ hlk) q2 hq2mem

theorem inv_mark_goal_complete {gid : String} {st : TutorState}
    (hcg : st.current_goal_id = some gid) (hinv : TutorInv st) :
    TutorInv (mark_goal_complete gid st) := by
  have hkey := hinv.cur_key gid hcg
  obtain ⟨p, hp⟩ := lookup_isSome_of_key_mem gid _ hkey
  have hnotc := hinv.cur_not_completed gid hcg
  have hshape : mark_goal_complete gid st =
      { st with
        goal_progress :=
          alUpdate gid (markCurrentResolved { p with completed := true })
            st.goal_progress
        completed_goal_ids := st.completed_goal_ids ++ [gid]
        current_goal_id := none
        current_question := none
        messages := st.messages ++ [aiMsg "Excellent! Goal complete."] } := by
    unfold mark_goal_complete
    rw [hp, if_neg hnotc]
  rw [hshape]
  have hpcomp : (markCurrentResolved { p with completed := true }).completed = true :=
    markCurrentResolved_completed _
  refine ⟨?_, ?_, ?_, ?_, ?_, ?_, ?_⟩
  · show (alUpdate gid _ st.goal_progress).map Prod.fst = _
    rw [alUpdate_keys]
    exact hinv.keys_eq
  · rw [List.nodup_append]
    exact ⟨hinv.nodup, List.nodup_singleton _, by
      intro a ha hb
      rw [List.mem_singleton] at hb
      subst hb
      exact hnotc ha⟩
  · intro gid' pp hpp
    by_cases hg : gid' = gid
    · subst hg
      rw [lookup_alUpdate_self, hp] at hpp
      simp only [Option.map_some'] at hpp
      cases hpp
      simp [hpcomp]
    · rw [lookup_alUpdate_ne _ _ _ _ hg] at hpp
      rw [hinv.completed_iff gid' pp hpp]
      simp [List.mem_append, hg]
  · intro gid' hg
    rw [List.mem_append, List.mem_singleton] at hg
    rw [alUpdate_keys]
    rcases hg with hg | hg
    · exact hinv.completed_key gid' hg
    · subst hg
      exact hkey
  · intro gid' hg
    cases hg
  · intro gid' hg
    cases hg
  · intro e he q' hq'
    rcases mem_alUpdate he with he | he
    · exact hinv.exchanges_zero e he q' hq'
    · subst he
      obtain ⟨q2, hq2mem, hq2e⟩ := markCurrentResolved_questions_exchanges _ q' hq'
      rw [hq2e]
      exact hinv.exchanges_zero (gid, p) (lookup_mem _ _ _ hp) q2 hq2mem

theorem graphStep_inv {c c' : GraphConfig} (h : GraphStep c c')
    (hinv : TutorInv c.2) : TutorInv c'.2 := by
  cases h with
  | select st => exact inv_select st hinv
  | genQuestions content st st' hok => exact inv_generate hok hinv
  | present resume st st' hok =>
    obtain ⟨m, hst'⟩ := present_question_ok hok
    subst hst'
    refine inv_congr ?_ ?_ ?_ ?_ hinv <;> rfl
  | evaluate content st st' r hok => exact inv_evaluate hok hinv
  | socratic socraticText resume st st' hok =>
    have hst' := socratic_response_ok hok
    subst hst'
    refine inv_congr ?_ ?_ ?_ ?_ hinv <;> rfl
  | advance st st' hok => exact inv_advance hok hinv
  | markComplete gid st hcg => exact inv_mark_goal_complete hcg hinv
  | summarize st => exact hinv

theorem reachable_inv {goals : List Goal} {moduleName : String} {c : GraphConfig}
    (h : ReachableConfig goals moduleName c) : TutorInv c.2 := by
  induction h with
  | refl => exact inv_initialize goals moduleName
  | tail hsteps hstep ih => exact graphStep_inv hstep ih

-- ===========================================================================
-- Python min() keeps the first element attaining the minimum (claim C4)
-- ===========================================================================

theorem pyMinBy_split (key : Goal → ℤ) (g : Goal) (t : List Goal) :
    ∃ l1 l2, g :: t = l1 ++ pyMinBy key g t :: l2 ∧
      (∀ x ∈ l1, key (pyMinBy key g t) < key x) ∧
      (∀ x ∈ g :: t, key (pyMinBy key g t) ≤ key x) := by
  induction t generalizing g with
  | nil =>
    refine ⟨[], [], rfl, by simp, ?_⟩
    intro y hy
    rw [List.mem_singleton] at hy
    subst hy
    simp [pyMinBy]
  | cons x t' ih =>
    unfold pyMinBy
    by_cases hx : key x < key g
    · rw [if_pos hx]
      obtain ⟨l1, l2, heq, hlt, hmin⟩ := ih x
      have hrx : key (pyMinBy key x t') ≤ key x := hmin x (List.mem_cons_self x t')
      refine ⟨g :: l1, l2, ?_, ?_, ?_⟩
      · rw [List.cons_append, ← heq]
      · intro y hy
        rcases List.mem_cons.mp hy with hy | hy
        · subst hy
          exact lt_of_le_of_lt hrx hx
        · exact hlt y hy
      · intro y hy
        rcases List.mem_cons.mp hy with hy | hy
        · subst hy
          exact le_of_lt (lt_of_le_of_lt hrx hx)
        · exact hmin y hy
    · rw [if_neg hx]
      obtain ⟨l1, l2, heq, hlt, hmin⟩ := ih g
      have hgx : key g ≤ key x := le_of_not_lt hx
      cases l1 with
      | nil =>
        simp only [List.nil_append] at heq
        have hr : g = pyMinBy key g t' ∧ t' = l2 := by
          injection heq with h1 h2
          exact ⟨h1, h2⟩
        refine ⟨[], x :: t', ?_, by simp, ?_⟩
        · simp [← hr.1]
        · intro y hy
          rcases List.mem_cons.mp hy with hy | hy
        
          · subst hy
            exact hmin y (List.mem_cons_self y t')
          · rcases List.mem_cons.mp hy with hy | hy
            · subst hy
              rw [← hr.1]
              exact hgx
            · exact hmin y (List.mem_cons_of_mem g hy)
      | cons a l1' =>
        simp only [List.cons_append] at heq
        have ha : g = a ∧ t' = l1' ++ pyMinBy key g t' :: l2 := by
          injection heq with h1 h2
          exact ⟨h1, h2⟩
        have hrg : key (pyMinBy key g t') < key g := by
          have := hlt a (List.mem_cons_self a l1')
          rw [← ha.1] at this
          exact this
        refine ⟨g :: x :: l1', l2, ?_, ?_, ?_⟩
        · conv_lhs => rw [ha.2]
          simp
        · intro y hy
          rcases List.mem_cons.mp hy with hy | hy
          · subst hy
            exact hrg
          · rcases List.mem_cons.mp hy with hy | hy
            · subst hy
              exact lt_of_lt_of_le hrg hgx
            · exact hlt y (List.mem_cons_of_mem a hy)
        · intro y hy
          rcases List.mem_cons.mp hy with hy | hy
          · subst hy
            exact hmin y (List.mem_cons_self y t')
          · rcases List.mem_cons.mp hy with hy | hy
            · subst hy
              exact le_of_lt (lt_of_lt_of_le hrg hgx)
            · exact hmin y (List.mem_cons_of_mem g hy)

-- ===========================================================================
-- generate_summary (tutor.py lines 714-836) / get_summary (routers/tutor.py
-- lines 459-565): the aggregation passes the claims talk about
-- ===========================================================================

/-- `total_questions` accumulation: `total_questions += len(progress.starter_questions)`
over the goal map (tutor.py lines 738-740; the router sums the same
quantity iterating `learning_goals`, which enumerates the same entries by
the `keys_eq` invariant). -/
def summary_total_questions (gp : List (String × GoalProgress)) : ℕ :=
  (gp.map (fun e => e.2.starter_questions.length)).sum

/-- `total_exchanges` accumulation: `for q in progress.starter_questions:
total_exchanges += q.exchanges` (tutor.py lines 742-743; likewise
routers/tutor.py lines 503-504). -/
def summary_total_exchanges (gp : List (String × GoalProgress)) : ℕ :=
  (gp.map (fun e => (e.2.starter_questions.map (fun q => q.exchanges)).sum)).sum

/-- `initial_scores` collection: scores are appended only when
`progress.initial_understanding is not None` (tutor.py lines 745-746). -/
def summary_initial_scores (gp : List (String × GoalProgress)) : List ℚ :=
  gp.filterMap (fun e => e.2.initial_understanding)

/-- `final_scores` collection (tutor.py lines 747-748). -/
def summary_final_scores (gp : List (String × GoalProgress)) : List ℚ :=
  gp.filterMap (fun e => e.2.final_understanding)

/-- `sum(scores) / len(scores) if scores else 0` (tutor.py lines 773-774). -/
def summary_average (scores : List ℚ) : ℚ :=
  if scores = [] then 0 else scores.sum / scores.length

/-- `all_misconceptions` collection: `for tp in progress.trajectory:
all_misconceptions.extend(tp.misconceptions)` across goals in dict order
(tutor.py lines 750-756). -/
def summary_all_misconceptions (gp : List (String × GoalProgress)) : List String :=
  gp.foldl (fun acc e =>
    acc ++ (e.2.trajectory.map (fun tp => tp.misconceptions)).flatten) []

/-- `all_breakthroughs` collection (tutor.py lines 750-757). -/
def summary_all_breakthroughs (gp : List (String × GoalProgress)) : List String :=
  gp.foldl (fun acc e =>
    acc ++ (e.2.trajectory.map (fun tp => tp.breakthroughs)).flatten) []

/-- `list(set(xs))`: CPython materialises the set in its internal iteration
order, which depends on the (randomised) string hashes; the only guarantees
are that the result is duplicate-free and has exactly the elements of `xs`.
`out` ranges over the possible results. -/
def isPySetList (xs out : List String) : Prop :=
  out.Nodup ∧ (∀ a ∈ xs, a ∈ out) ∧ (∀ a ∈ out, a ∈ xs)

instance (xs out : List String) : Decidable (isPySetList xs out) := by
  unfold isPySetList
  infer_instance

/-- `key_misconceptions` / `key_breakthroughs`: `list(set(xs))[:10]`
(tutor.py lines 796-797; routers/tutor.py lines 550-551), given the set
iteration order `setOrder`. -/
def summary_key_insights (setOrder : List String) : List String :=
  setOrder.take 10

/-- Deduplication that keeps the first occurrence of each element, in
first-occurrence order: the ordering the specification ascribes to the
key-insight lists. -/
def dedupFirstAux : List String → List String → List String
  | [], _ => []
  | a :: l, seen =>
    if a ∈ seen then dedupFirstAux l seen else a :: dedupFirstAux l (a :: seen)

def dedupFirst (l : List String) : List String := dedupFirstAux l []

/-- The mean over only the goals whose score is non-null, as the spec words
it: filter the goals with a non-null value, then average their values. -/
def meanOfNonNull (vals : List (Option ℚ)) : ℚ :=
  let present := (vals.filter (fun v => v.isSome)).map (fun v => v.getD 0)
  if present = [] then 0 else present.sum / present.length

-- ===========================================================================
-- Content cleaning before json.loads (claim C7)
-- ===========================================================================

def openBraceChar : Char := Char.ofNat 123

def closeBraceChar : Char := Char.ofNat 125

/-- Modelled from the spec: `clean_thinking_content` (imported from
`backpack.utils`, which is not under src/) is the only step between the raw
Generator text and the strict `json.loads` call in
`generate_starter_questions` (tutor.py lines 305-314), so the permissive
behaviour the spec requires — "parses the response permissively (tolerates
surrounding prose/markdown fencing around a JSON payload)" (section 4.3),
with a "raw brace/bracket scan" in its extraction chain (section 9) — must
live in this cleaning step.  Modelled as the raw brace scan: keep the span
from the first opening brace to the last closing brace when both are
present (markdown fences and surrounding prose contain neither), otherwise
return the text unchanged. -/
def clean_thinking_content (raw : String) : String :=
  let cs := raw.data
  if openBraceChar ∈ cs ∧ closeBraceChar ∈ cs then
    String.mk
      (((cs.dropWhile (fun c => c ≠ openBraceChar)).reverse.dropWhile
          (fun c => c ≠ closeBraceChar)).reverse)
  else raw

/-- The content handed to `json.loads` by `generate_starter_questions`
(tutor.py lines 305-312), with the stdlib decoder passed as a parameter. -/
def question_generation_content (loads : String → Option JValue) (raw : String) :
    Option JValue :=
  loads (clean_thinking_content raw)

theorem dropWhile_append_of_all {α : Type} (p : α → Bool) (l1 l2 : List α)
    (h : ∀ c ∈ l1, p c = true) :
    (l1 ++ l2).dropWhile p = l2.dropWhile p := by
  induction l1 with
  | nil => rfl
  | cons a t ih =>
    rw [List.cons_append, List.dropWhile_cons, if_pos (h a (List.mem_cons_self a t))]
    exact ih (fun c hc => h c (List.mem_cons_of_mem a hc))

/-- Cleaning a payload that starts with an opening brace and ends with a
closing brace, wrapped in brace-free prose or fencing, recovers the payload
exactly. -/
theorem clean_thinking_content_extracts (p1 s p2 : String)
    (hp1 : openBraceChar ∉ p1.data) (hp2 : closeBraceChar ∉ p2.data)
    (hs1 : s.data.head? = some openBraceChar)
    (hs2 : s.data.getLast? = some closeBraceChar) :
    clean_thinking_content (p1 ++ s ++ p2) = s := by
  obtain ⟨mid, hmid⟩ : ∃ mid, s.data = openBraceChar :: mid := by
    cases hd : s.data with
    | nil => rw [hd] at hs1; cases hs1
    | cons c rest =>
      rw [hd] at hs1
      simp only [List.head?] at hs1
      cases hs1
      exact ⟨rest, rfl⟩
  obtain ⟨mid2, hmid2⟩ : ∃ mid2, s.data.reverse = closeBraceChar :: mid2 := by
    have hh : s.data.reverse.head? = some closeBraceChar := by
      rw [List.head?_reverse]
      exact hs2
    cases hd : s.data.reverse with
    | nil => rw [hd] at hh; cases hh
    | cons c rest =>
      rw [hd] at hh
      simp only [List.head?] at hh
      cases hh
      exact ⟨rest, rfl⟩
  have hdata : (p1 ++ s ++ p2).data = p1.data ++ s.data ++ p2.data := by
    simp [String.data_append]
  have hmem : openBraceChar ∈ (p1 ++ s ++ p2).data ∧
      closeBraceChar ∈ (p1 ++ s ++ p2).data := by
    constructor
    · rw [hdata, hmid]
      simp
    · rw [hdata]
      have hcl : closeBraceChar ∈ s.data := by
        rw [← List.mem_reverse, hmid2]
        simp
      simp [hcl]
  unfold clean_thinking_content
  rw [if_pos hmem, hdata]
  have h1 : (p1.data ++ s.data ++ p2.data).dropWhile (fun c => c ≠ openBraceChar) =
      s.data ++ p2.data := by
    rw [List.append_assoc]
    rw [dropWhile_append_of_all _ p1.data _ (by
      intro c hc
      simp only [ne_eq, decide_eq_true_eq]
      intro hcx
      subst hcx
      exact hp1 hc)]
    rw [hmid, List.cons_append, List.dropWhile_cons]
    simp
  rw [h1, List.reverse_append]
  rw [dropWhile_append_of_all _ p2.data.reverse _ (by
    intro c hc
    rw [List.mem_reverse] at hc
    simp only [ne_eq, decide_eq_true_eq]
    intro hcx
    subst hcx
    exact hp2 hc)]
  rw [hmid2, List.dropWhile_cons]
  simp only [ne_eq, not_true_eq_false, decide_False, Bool.false_eq_true, if_false]
  rw [← hmid2, List.reverse_reverse]

-- ===========================================================================
-- Computation lemmas for the parse fallback paths
-- ===========================================================================

theorem ok_bind {α β : Type} (a : α) (f : α → Except PyError β) :
    (Except.ok a >>= f) = f a := rfl

theorem error_bind {α β : Type} (e : PyError) (f : α → Except PyError β) :
    ((Except.error e : Except PyError α) >>= f) = .error e := rfl

/-- The neutral evaluation produced when parsing the Generator output fails
with `json.JSONDecodeError` or `ValueError`. -/
def fallbackEvaluation : EvaluationResult :=
  ⟨Rat.divInt 1 2, "Evaluation parsing failed", [], [], false⟩

theorem from_score_default_ok (s : ℚ) (n : String) (h0 : 0 ≤ s) (h1 : s ≤ 1) :
    EvaluationResult.from_score_default s n =
      .ok ⟨s, n, [], [], decide ((7 : ℚ) / 10 ≤ s)⟩ := by
  unfold EvaluationResult.from_score_default EvaluationResult.from_score
    EvaluationResult.validate
  rw [if_pos ⟨h0, h1⟩, divInt_7_10]

theorem from_score_default_half :
    EvaluationResult.from_score_default (Rat.divInt 1 2) "Evaluation parsing failed" =
      .ok fallbackEvaluation := by
  rw [from_score_default_ok (Rat.divInt 1 2) "Evaluation parsing failed"
    (by rw [divInt_1_2]; norm_num) (by rw [divInt_1_2]; norm_num)]
  simp only [fallbackEvaluation]
  norm_num [divInt_1_2]

theorem parse_evaluation_catch {content : Option JValue} {m : String}
    (h : evaluationParseTry content = .error (.valueError m) ∨
      evaluationParseTry content = .error (.jsonDecodeError m)) :
    parse_evaluation content = .ok fallbackEvaluation := by
  unfold parse_evaluation
  rcases h with h | h <;> rw [h] <;> exact from_score_default_half


theorem jAsStr_cases (v : JValue) :
    (∃ s, jAsStr v = .ok s) ∨ ∃ m, jAsStr v = .error (.valueError m) := by
  cases v <;> simp [jAsStr]

theorem exceptMapM_jAsStr_cases (l : List JValue) :
    (∃ out, exceptMapM jAsStr l = .ok out) ∨
      ∃ m, exceptMapM jAsStr l = .error (.valueError m) := by
  induction l with
  | nil => exact Or.inl ⟨[], rfl⟩
  | cons a t ih =>
    rcases jAsStr_cases a with ⟨s, hs⟩ | ⟨m, hm⟩
    · rcases ih with ⟨out, hout⟩ | ⟨m, hm⟩
      · exact Or.inl ⟨s :: out, by unfold exceptMapM; rw [hs, ok_bind, hout, ok_bind]⟩
      · exact Or.inr ⟨m, by unfold exceptMapM; rw [hs, ok_bind, hm, error_bind]⟩
    · exact Or.inr ⟨m, by unfold exceptMapM; rw [hm, error_bind]⟩

theorem jAsStrList_cases (v : JValue) :
    (∃ l, jAsStrList v = .ok l) ∨ ∃ m, jAsStrList v = .error (.valueError m) := by
  cases v <;> first
    | exact Or.inr ⟨_, rfl⟩
    | (exact exceptMapM_jAsStr_cases _)

/-- A numeric score outside [0,1] makes the `try` body fail with a
`ValueError` (pydantic's `ValidationError`), whatever the other fields
hold. -/
theorem evaluationParseTry_out_of_range {fields : List (String × JValue)} {s : ℚ}
    (hscore : fields.lookup "score" = some (.num s)) (hs : s < 0 ∨ 1 < s) :
    ∃ m, evaluationParseTry (some (.obj fields)) = .error (.valueError m) := by
  have hrange : ¬(0 ≤ s ∧ s ≤ 1) := by
    rcases hs with hs | hs
    · exact fun hc => absurd hc.1 (not_le.mpr hs)
    · exact fun hc => absurd hc.2 (not_le.mpr hs)
  unfold evaluationParseTry
  dsimp only
  rw [ok_bind]
  have h1 : jget (.obj fields) "score" (.num (Rat.divInt 1 2)) = .ok (.num s) := by
    simp [jget, hscore]
  rw [h1, ok_bind]
  have h2 : pyFloat (.num s) = .ok s := rfl
  rw [h2, ok_bind]
  have h3 : ∀ key dflt, jget (.obj fields) key dflt =
      .ok ((fields.lookup key).getD dflt) := fun key dflt => rfl
  rw [h3, ok_bind, h3, ok_bind, h3, ok_bind]
  rcases jAsStr_cases ((fields.lookup "notes").getD (.str "")) with ⟨ns, hns⟩ | ⟨m, hns⟩
  · rw [hns, ok_bind]
    rcases jAsStrList_cases ((fields.lookup "misconceptions").getD (.arr []))
      with ⟨ms, hms⟩ | ⟨m, hms⟩
    · rw [hms, ok_bind]
      rcases jAsStrList_cases ((fields.lookup "breakthroughs").getD (.arr []))
        with ⟨bs, hbs⟩ | ⟨m, hbs⟩
      · rw [hbs, ok_bind]
        unfold EvaluationResult.validate
        rw [if_neg hrange]
        exact ⟨_, rfl⟩
      · rw [hbs, error_bind]
        exact ⟨m, rfl⟩
    · rw [hms, error_bind]
      exact ⟨m, rfl⟩
  · rw [hns, error_bind]
    exact ⟨m, rfl⟩

theorem parse_evaluation_cases (content : Option JValue) :
    (∃ e, evaluationParseTry content = .ok e ∧ parse_evaluation content = .ok e) ∨
    (parse_evaluation content = .ok fallbackEvaluation) ∨
    (∃ err, parse_evaluation content = .error err) := by
  unfold parse_evaluation
  cases htry : evaluationParseTry content with
  | ok e => exact Or.inl ⟨e, rfl, rfl⟩
  | error err =>
    cases err with
    | valueError m => exact Or.inr (Or.inl from_score_default_half)
    | jsonDecodeError m => exact Or.inr (Or.inl from_score_default_half)
    | typeError m => exact Or.inr (Or.inr ⟨_, rfl⟩)
    | keyError m => exact Or.inr (Or.inr ⟨_, rfl⟩)
    | attributeError m => exact Or.inr (Or.inr ⟨_, rfl⟩)
    | indexError m => exact Or.inr (Or.inr ⟨_, rfl⟩)

-- ===========================================================================
-- Claim theorems
-- ===========================================================================

/-- C1: for every evaluation of a learner reply, the resulting
`EvaluationResult` has `is_resolved = true` iff its `score ≥ 0.7`; this
holds for everything the evaluation parse of `evaluate_and_route` can
produce (successfully-parsed path and parse fallback alike), and for
`EvaluationResult.from_score` with the default threshold for every score in
[0,1], including the boundary 0.7 (resolved) and scores strictly below it
(not resolved). -/
theorem claim_C1 :
    (∀ content e, parse_evaluation content = .ok e →
      (e.is_resolved = true ↔ (7 : ℚ) / 10 ≤ e.score)) ∧
    (∀ s : ℚ, 0 ≤ s → s ≤ 1 →
      ∃ e, EvaluationResult.from_score_default s "" = .ok e ∧
        e.score = s ∧ (e.is_resolved = true ↔ (7 : ℚ) / 10 ≤ s)) := by
  constructor
  · intro content e h
    rcases parse_evaluation_cases content with ⟨e', htry, heq⟩ | heq | ⟨err, heq⟩
    · rw [heq] at h
      cases h
      have hs := evaluationParseTry_ok_shape htry
      rw [hs.1]
      simp
    · rw [heq] at h
      cases h
      simp only [fallbackEvaluation]
      norm_num [divInt_1_2]
    · rw [heq] at h
      cases h
  · intro s h0 h1
    refine ⟨⟨s, "", [], [], decide ((7 : ℚ) / 10 ≤ s)⟩,
      from_score_default_ok s "" h0 h1, rfl, ?_⟩
    simp

/-- C1 witness: the boundary score 0.7 itself is resolved under
`from_score` with the default threshold. -/
theorem claim_C1_witness :
    ∃ e, EvaluationResult.from_score_default (7 / 10) "" = .ok e ∧
      e.score = 7 / 10 ∧ (e.is_resolved = true ↔ (7 : ℚ) / 10 ≤ 7 / 10) :=
  claim_C1.2 (7 / 10) (by norm_num) (by norm_num)

/-- C9 counterexample: a Generator evaluation output whose score is JSON
`null` is "not coercible to float", but `float(None)` raises `TypeError`,
which `except (json.JSONDecodeError, ValueError)` does not catch: instead
of degrading to the neutral fallback, the turn errors out. -/
theorem claim_C9_counterexample :
    parse_evaluation (some (.obj [("score", .null)])) =
      .error (.typeError "float argument must be a string or a number") := by
  rfl

/-- C9 amended: a *numeric* score outside [0,1] raises pydantic's
`ValidationError`, a `ValueError` subclass, which is caught, and the
evaluation degrades to the neutral fallback (score 0.5, not resolved)
instead of crashing the turn; consequently every `EvaluationResult` the
parse produces has its score in [0,1].  (A score of JSON `null`, a list or
an object raises `TypeError` instead, which is not caught — see the
counterexample.) -/
theorem claim_C9 :
    (∀ (fields : List (String × JValue)) (s : ℚ),
      fields.lookup "score" = some (.num s) → s < 0 ∨ 1 < s →
      parse_evaluation (some (.obj fields)) = .ok fallbackEvaluation ∧
        fallbackEvaluation.score = 1 / 2 ∧ fallbackEvaluation.is_resolved = false) ∧
    (∀ content e, parse_evaluation content = .ok e → 0 ≤ e.score ∧ e.score ≤ 1) := by
  constructor
  · intro fields s hscore hs
    obtain ⟨m, htry⟩ := evaluationParseTry_out_of_range hscore hs
    refine ⟨parse_evaluation_catch (Or.inl htry), ?_, rfl⟩
    show Rat.divInt 1 2 = 1 / 2
    rw [divInt_1_2]
  · intro content e h
    rcases parse_evaluation_cases content with ⟨e', htry, heq⟩ | heq | ⟨err, heq⟩
    · rw [heq] at h
      cases h
      exact (evaluationParseTry_ok_shape htry).2
    · rw [heq] at h
      cases h
      constructor <;> norm_num [fallbackEvaluation, divInt_1_2]
    · rw [heq] at h
      cases h

/-- C9 witness: a score of 2 degrades to the neutral fallback. -/
theorem claim_C9_witness :
    parse_evaluation (some (.obj [("score", .num 2)])) = .ok fallbackEvaluation ∧
      fallbackEvaluation.score = 1 / 2 ∧ fallbackEvaluation.is_resolved = false :=
  claim_C9.1 [("score", .num 2)] 2 rfl (Or.inr (by norm_num))

/-- C3: question generation returns a non-empty list of at most 5
`StarterQuestion`s: a parsed `questions` list is truncated to its first 5
entries (indices reassigned by `enumerate`), unparseable output
(`json.JSONDecodeError`) yields exactly one fallback question built from
the goal description at index 0, and an empty parsed list yields the single
`ensure`-question — a goal is never left with zero questions. -/
theorem claim_C3 (content : Option JValue) (goalDescription : String)
    (qs : List StarterQuestion)
    (h : generate_questions_parse content goalDescription = .ok qs) :
    qs ≠ [] ∧ qs.length ≤ 5 ∧
    (content = none →
      qs = [fallbackStarterQuestion goalDescription] ∧
      (fallbackStarterQuestion goalDescription).index = 0) ∧
    (∀ parsed qdata, content = some parsed → questions_list parsed = .ok qdata →
      (qdata ≠ [] →
        qs.length = min 5 qdata.length ∧
        ∀ i (hi : i < qs.length), ∃ (hq : i < qdata.length),
          mkStarterQuestion i qdata[i] = .ok qs[i]) ∧
      (qdata = [] → qs = [ensureQuestion goalDescription])) := by
  refine ⟨(generate_questions_parse_ok_shape h).1,
    (generate_questions_parse_ok_shape h).2.1, ?_, ?_⟩
  · intro hc
    subst hc
    rw [generate_questions_parse_none] at h
    cases h
    exact ⟨rfl, rfl⟩
  · intro parsed qdata hc hql
    subst hc
    unfold generate_questions_parse at h
    dsimp only at h
    obtain ⟨qd', hqd', hbuild⟩ := bind_ok_iff.mp h
    rw [hql] at hqd'
    cases hqd'
    constructor
    · intro hne
      unfold build_starter_questions at hbuild
      obtain ⟨starter, hst, hif⟩ := bind_ok_iff.mp hbuild
      have hlen : starter.length = (qdata.take 5).length := by
        have h1 := exceptMapM_ok_length hst
        simpa using h1
      have hlenpos : starter ≠ [] := by
        intro hempty
        rw [hempty] at hlen
        simp only [List.length_nil, List.length_take] at hlen
        have hpos : 0 < qdata.length := List.length_pos.mpr hne
        omega
      rw [if_neg hlenpos] at hif
      cases hif
      constructor
      · rw [hlen, List.length_take]
      · intro i hi
        have hi' : i < (qdata.take 5).length := hlen ▸ hi
        have hienum : i < (qdata.take 5).enum.length := by simpa using hi'
        have hq : i < qdata.length := by
          rw [List.length_take] at hi'
          exact lt_of_lt_of_le hi' (min_le_right 5 _)
        refine ⟨hq, ?_⟩
        have hg := exceptMapM_ok_get hst i hienum hi
        simpa only [List.get_eq_getElem, List.getElem_enum, List.getElem_take] using hg
    · intro hempty
      subst hempty
      have hb : build_starter_questions [] goalDescription =
          .ok [ensureQuestion goalDescription] := rfl
      rw [hb] at hbuild
      cases hbuild
      rfl

/-- C3 witness: the decode-failure path yields exactly the single fallback
question at index 0. -/
theorem claim_C3_witness :
    [fallbackStarterQuestion "gravity"] ≠ [] ∧
      (fallbackStarterQuestion "gravity").index = 0 := by
  have h := claim_C3 none "gravity" [fallbackStarterQuestion "gravity"]
    (generate_questions_parse_none "gravity")
  exact ⟨h.1, (h.2.2.1 rfl).2⟩

/-- C7: when the Generator output surrounds its JSON payload with prose
and/or markdown code fencing (neither of which contains a brace), the
cleaning step recovers the payload exactly, so question generation parses
the contained question list (whatever `json.loads` yields on the payload
alone) rather than taking the `json.JSONDecodeError` fallback path. -/
theorem claim_C7 (loads : String → Option JValue) (p1 s p2 : String) (v : JValue)
    (hp1 : openBraceChar ∉ p1.data) (hp2 : closeBraceChar ∉ p2.data)
    (hs1 : s.data.head? = some openBraceChar)
    (hs2 : s.data.getLast? = some closeBraceChar)
    (hv : loads s = some v) :
    question_generation_content loads (p1 ++ s ++ p2) = some v ∧
    ∀ d, generate_questions_parse (question_generation_content loads (p1 ++ s ++ p2)) d =
      generate_questions_parse (some v) d := by
  have hc := clean_thinking_content_extracts p1 s p2 hp1 hp2 hs1 hs2
  unfold question_generation_content
  rw [hc, hv]
  exact ⟨rfl, fun d => rfl⟩

/-- C7 witness: a fenced payload surrounded by prose parses to the decoded
payload value. -/
theorem claim_C7_witness :
    question_generation_content
        (fun t => if t = "\x7b\"questions\": []\x7d"
          then some (.obj [("questions", .arr [])]) else none)
        ("Sure! Here are the questions:\n```json\n" ++
          "\x7b\"questions\": []\x7d" ++ "\n```\nGood luck.") =
      some (.obj [("questions", .arr [])]) :=
  (claim_C7
    (fun t => if t = "\x7b\"questions\": []\x7d"
      then some (.obj [("questions", .arr [])]) else none)
    "Sure! Here are the questions:\n```json\n"
    "\x7b\"questions\": []\x7d"
    "\n```\nGood luck."
    (.obj [("questions", .arr [])])
    (by decide) (by decide) (by decide) (by decide) (by simp)).1

/-- C4: goal selection is deterministic: `select_next_goal` yields `null`
exactly when no unfinished goal exists, and otherwise selects the
unfinished goal with the lowest `order`, ties broken by original sequence
position (every unfinished goal strictly before the selected one has a
strictly larger order). -/
theorem claim_C4 (st : TutorState) :
    ((select_next_goal st).current_goal_id = none ↔
      st.learning_goals.filter (fun g => g.id ∉ st.completed_goal_ids) = []) ∧
    (st.learning_goals.filter (fun g => g.id ∉ st.completed_goal_ids) ≠ [] →
      ∃ gsel l1 l2,
        (select_next_goal st).current_goal_id = some gsel.id ∧
        st.learning_goals.filter (fun g => g.id ∉ st.completed_goal_ids) =
          l1 ++ gsel :: l2 ∧
        (∀ x ∈ l1, gsel.order < x.order) ∧
        (∀ x ∈ st.learning_goals.filter (fun g => g.id ∉ st.completed_goal_ids),
          gsel.order ≤ x.order)) := by
  unfold select_next_goal
  cases hu : st.learning_goals.filter (fun g => g.id ∉ st.completed_goal_ids) with
  | nil =>
    exact ⟨⟨fun _ => rfl, fun _ => rfl⟩, fun hne => absurd rfl hne⟩
  | cons g rest =>
    constructor
    · exact ⟨(fun h => by cases h), (fun h => by cases h)⟩
    · intro hne
      obtain ⟨l1, l2, heq, hlt, hmin⟩ := pyMinBy_split (fun g => g.order) g rest
      exact ⟨pyMinBy (fun g => g.order) g rest, l1, l2, rfl, heq, hlt, hmin⟩

/-- C4 witness: with two unfinished goals of orders 5 and 2, the goal of
order 2 is selected; with all goals finished, selection yields null. -/
theorem claim_C4_witness :
    (({ learning_goals := [⟨"a", "da", "", 5⟩, ⟨"b", "db", "", 2⟩],
        goal_progress := [], completed_goal_ids := [], current_goal_id := none,
        current_question := none, latest_evaluation := none,
        understanding_trajectory := [], messages := [] } :
          TutorState).learning_goals.filter
        (fun g => g.id ∉ ([] : List String)) ≠ []) ∧
    ∃ gsel l1 l2,
      (select_next_goal
          { learning_goals := [⟨"a", "da", "", 5⟩, ⟨"b", "db", "", 2⟩],
            goal_progress := [], completed_goal_ids := [], current_goal_id := none,
            current_question := none, latest_evaluation := none,
            understanding_trajectory := [], messages := [] }).current_goal_id =
        some gsel.id ∧
      ([⟨"a", "da", "", 5⟩, ⟨"b", "db", "", 2⟩] : List Goal).filter
          (fun g => g.id ∉ ([] : List String)) = l1 ++ gsel :: l2 ∧
      (∀ x ∈ l1, gsel.order < x.order) ∧
      (∀ x ∈ ([⟨"a", "da", "", 5⟩, ⟨"b", "db", "", 2⟩] : List Goal).filter
          (fun g => g.id ∉ ([] : List String)), gsel.order ≤ x.order) := by
  constructor
  · decide
  · exact (claim_C4 _).2 (by decide)

/-- C5 counterexample: creating a session on a module with zero learning
goals does fail, but not with a dedicated `NoGoalsError` — no such error
exists anywhere in the code; `generate_starter_questions` raises
`ValueError("Goal not found: None")` (surfaced by the router as a generic
HTTP 500) — and session state *is* persisted: the checkpointer has already
written the post-`initialize`/`select_goal` checkpoints under the new
session id when the error is raised. -/
theorem claim_C5_counterexample :
    (run_create [] "Empty Module" none).1 =
        .error (.valueError "Goal not found: None") ∧
      ((run_create [] "Empty Module" none).2).isSome = true := by
  constructor <;> rfl

/-- C5 amended: for every module with zero learning goals, `CreateSession`
fails — the question-generation node raises `ValueError("Goal not found:
None")` because goal selection left `current_goal_id` null, and the router
surfaces it as a generic 500 (there is no `NoGoalsError`) — and a partial
session (initialized with zero goals, no goal selected) remains persisted
under the new session id by the checkpointer. -/
theorem claim_C5 (moduleName : String) (content : Option JValue) :
    (run_create [] moduleName content).1 =
        .error (.valueError "Goal not found: None") ∧
      (run_create [] moduleName content).2 =
        some (.generateQuestions, select_next_goal (initialize_session [] moduleName)) := by
  have hsel : (select_next_goal (initialize_session [] moduleName)).current_goal_id =
      none := rfl
  have hgen : generate_starter_questions content
      (select_next_goal (initialize_session [] moduleName)) =
        .error (.valueError "Goal not found: None") := by
    unfold generate_starter_questions
    rw [hsel]
    rfl
  unfold run_create
  dsimp only
  rw [hgen]
  exact ⟨rfl, rfl⟩

theorem mark_goal_complete_shape {gid : String} {st : TutorState} {p : GoalProgress}
    (hp : st.goal_progress.lookup gid = some p)
    (hnotc : gid ∉ st.completed_goal_ids) :
    mark_goal_complete gid st =
      { st with
        goal_progress :=
          alUpdate gid (markCurrentResolved { p with completed := true })
            st.goal_progress
        completed_goal_ids := st.completed_goal_ids ++ [gid]
        current_goal_id := none
        current_question := none
        messages := st.messages ++ [aiMsg "Excellent! Goal complete."] } := by
  unfold mark_goal_complete
  rw [hp, if_neg hnotc]

/-- A one-goal module used to instantiate the reachability hypotheses of
the state-machine claims at a concrete input. -/
def demo_goals : List Goal := [⟨"g1", "intro goal", "", 0⟩]

/-- C6: in every reachable session state, `completed_goal_ids` is
duplicate-free and, viewed as a set, equals the set of goal ids whose
`goal_progress` entry has `completed = true`; and `mark_goal_complete` on
the active goal appends its id (never a duplicate) while setting the flag. -/
theorem claim_C6 {goals : List Goal} {moduleName : String} {c : GraphConfig}
    (h : ReachableConfig goals moduleName c) :
    c.2.completed_goal_ids.Nodup ∧
    (∀ gid, gid ∈ c.2.completed_goal_ids ↔
      ∃ p, c.2.goal_progress.lookup gid = some p ∧ p.completed = true) ∧
    (∀ gid, c.2.current_goal_id = some gid →
      (mark_goal_complete gid c.2).completed_goal_ids =
          c.2.completed_goal_ids ++ [gid] ∧
        ∃ pc, (mark_goal_complete gid c.2).goal_progress.lookup gid = some pc ∧
          pc.completed = true) := by
  have hinv := reachable_inv h
  refine ⟨hinv.nodup, ?_, ?_⟩
  · intro gid
    constructor
    · intro hg
      obtain ⟨p, hp⟩ := lookup_isSome_of_key_mem gid _ (hinv.completed_key gid hg)
      exact ⟨p, hp, (hinv.completed_iff gid p hp).mpr hg⟩
    · rintro ⟨p, hp, hc⟩
      exact (hinv.completed_iff gid p hp).mp hc
  · intro gid hcg
    obtain ⟨p, hp⟩ := lookup_isSome_of_key_mem gid _ (hinv.cur_key gid hcg)
    rw [mark_goal_complete_shape hp (hinv.cur_not_completed gid hcg)]
    refine ⟨rfl, markCurrentResolved { p with completed := true }, ?_,
      markCurrentResolved_completed _⟩
    show (alUpdate gid _ c.2.goal_progress).lookup gid = _
    rw [lookup_alUpdate_self, hp]
    rfl

/-- C6 witness: the invariant at the freshly initialized session. -/
theorem claim_C6_witness :
    (GraphNode.selectGoal, initialize_session demo_goals "M").2.completed_goal_ids.Nodup ∧
    (∀ gid, gid ∈
        (GraphNode.selectGoal, initialize_session demo_goals "M").2.completed_goal_ids ↔
      ∃ p, (GraphNode.selectGoal,
          initialize_session demo_goals "M").2.goal_progress.lookup gid = some p ∧
        p.completed = true) ∧
    (∀ gid, (GraphNode.selectGoal,
        initialize_session demo_goals "M").2.current_goal_id = some gid →
      (mark_goal_complete gid
            (GraphNode.selectGoal, initialize_session demo_goals "M").2).completed_goal_ids =
          (GraphNode.selectGoal,
            initialize_session demo_goals "M").2.completed_goal_ids ++ [gid] ∧
        ∃ pc, (mark_goal_complete gid
            (GraphNode.selectGoal,
              initialize_session demo_goals "M").2).goal_progress.lookup gid = some pc ∧
          pc.completed = true) :=
  claim_C6 Relation.ReflTransGen.refl

/-- C10: every evaluation round increments `exchanges` only on the
session-level `current_question` snapshot; the `StarterQuestion`s stored in
`goal_progress` are never written back, so in every reachable session state
all stored per-question `exchanges` counts are 0 and the summary
aggregation `total_exchanges` computed from `goal_progress` (as in
`generate_summary` and `get_summary`) is 0 regardless of how many
evaluation rounds occurred. -/
theorem claim_C10 {goals : List Goal} {moduleName : String} {c : GraphConfig}
    (h : ReachableConfig goals moduleName c) :
    (∀ e ∈ c.2.goal_progress, ∀ q ∈ (e.2 : GoalProgress).starter_questions,
      q.exchanges = 0) ∧
    summary_total_exchanges c.2.goal_progress = 0 ∧
    (∀ content r st', evaluate_and_route content c.2 = .ok (r, st') →
      lastStudentMessage c.2.messages ≠ "" →
      (∃ q, c.2.current_question = some q ∧
        st'.current_question = some { q with exchanges := q.exchanges + 1 }) ∧
      ∀ gid p', st'.goal_progress.lookup gid = some p' →
        ∃ p, c.2.goal_progress.lookup gid = some p ∧
          p'.starter_questions = p.starter_questions) := by
  have hinv := reachable_inv h
  refine ⟨hinv.exchanges_zero, ?_, ?_⟩
  · unfold summary_total_exchanges
    apply List.sum_eq_zero
    intro x hx
    obtain ⟨e, he, hxe⟩ := List.mem_map.mp hx
    rw [← hxe]
    apply List.sum_eq_zero
    intro y hy
    obtain ⟨q, hq, hyq⟩ := List.mem_map.mp hy
    rw [← hyq]
    exact hinv.exchanges_zero e he q hq
  · intro content r st' hok hmsg
    rcases evaluate_and_route_ok hok with ⟨hempty, -, -⟩ | ⟨-, ev, -, hafter⟩
    · exact absurd hempty hmsg
    · obtain ⟨q, point, hq, -, hst', -, -⟩ := evaluate_route_after_ok hafter
      subst hst'
      refine ⟨⟨q, hq, rfl⟩, ?_⟩
      intro gid p' hp'
      obtain ⟨p, hp, hf⟩ := (evalUpdatedState_frame ev point q c.2).2 gid p' hp'
      exact ⟨p, hp, hf.2.2.1⟩

/-- C10 witness: the frame property at the freshly initialized session. -/
theorem claim_C10_witness :
    (∀ e ∈ (GraphNode.selectGoal,
        initialize_session demo_goals "M").2.goal_progress,
      ∀ q ∈ (e.2 : GoalProgress).starter_questions, q.exchanges = 0) ∧
    summary_total_exchanges
        (GraphNode.selectGoal, initialize_session demo_goals "M").2.goal_progress = 0 ∧
    (∀ content r st',
      evaluate_and_route content
          (GraphNode.selectGoal, initialize_session demo_goals "M").2 = .ok (r, st') →
      lastStudentMessage
          (GraphNode.selectGoal, initialize_session demo_goals "M").2.messages ≠ "" →
      (∃ q, (GraphNode.selectGoal,
          initialize_session demo_goals "M").2.current_question = some q ∧
        st'.current_question = some { q with exchanges := q.exchanges + 1 }) ∧
      ∀ gid p', st'.goal_progress.lookup gid = some p' →
        ∃ p, (GraphNode.selectGoal,
            initialize_session demo_goals "M").2.goal_progress.lookup gid = some p ∧
          p'.starter_questions = p.starter_questions) :=
  claim_C10 Relation.ReflTransGen.refl

theorem mkUnderstandingPoint_ok_goal {goalId : Option String}
    {qi en : ℕ} {m : String} {ev : EvaluationResult} {point : UnderstandingPoint}
    (h : mkUnderstandingPoint goalId qi en m ev = .ok point) :
    goalId = some point.goal_id := by
  unfold mkUnderstandingPoint at h
  cases goalId with
  | none => cases h
  | some gid =>
    dsimp only at h
    by_cases hb : 0 ≤ ev.score ∧ ev.score ≤ 1
    · rw [if_pos hb] at h
      cases h
      rfl
    · rw [if_neg hb] at h
      cases h

theorem markCurrentResolved_length (p : GoalProgress) :
    (markCurrentResolved p).starter_questions.length = p.starter_questions.length := by
  unfold markCurrentResolved
  split
  · split <;> simp
  · rfl

theorem markCurrentResolved_has_more (p : GoalProgress) :
    (markCurrentResolved p).has_more_questions = p.has_more_questions := by
  unfold GoalProgress.has_more_questions
  rw [markCurrentResolved_length, markCurrentResolved_index]

theorem advance_of_has_more {p : GoalProgress} (h : p.has_more_questions = true) :
    (p.advance_to_next_question).1.current_question_index =
        p.current_question_index + 1 ∧
      ∃ q, (p.advance_to_next_question).2 = some q ∧ q ∈ p.starter_questions := by
  have hlt : p.current_question_index + 1 < p.starter_questions.length := by
    unfold GoalProgress.has_more_questions at h
    simpa using h
  unfold GoalProgress.advance_to_next_question
  rw [if_pos h]
  dsimp only
  refine ⟨rfl, ?_⟩
  unfold GoalProgress.get_current_question
  dsimp only
  rw [dif_pos hlt]
  exact ⟨_, rfl, List.get_mem _ _ _⟩

/-- C2: routing out of the evaluation step follows the priority order: if
`is_resolved` is false the session goes back to the Socratic loop and no
goal's `current_question_index` advances; otherwise, if more starter
questions remain for the current goal, the route is `advance` and advancing
increments the index and presents the next question with `exchanges = 0`;
otherwise the route is `markComplete`, which sets the goal's completed
flag, appends its id to `completed_goal_ids`, clears `current_goal_id` and
`current_question`, and the graph continues to goal selection exactly when
unfinished goals remain, else to the summary. -/
theorem claim_C2 {goals : List Goal} {moduleName : String} {st : TutorState}
    (hreach : ReachableConfig goals moduleName (.evaluate, st))
    {content : Option JValue} {r : Route} {st' : TutorState} {ev : EvaluationResult}
    (hok : evaluate_and_route content st = .ok (r, st'))
    (hev : st'.latest_evaluation = some ev) :
    (ev.is_resolved = false → r = .socratic ∧
      ∀ gid p p', st.goal_progress.lookup gid = some p →
        st'.goal_progress.lookup gid = some p' →
        p'.current_question_index = p.current_question_index) ∧
    (ev.is_resolved = true →
      ∃ gid p', st'.current_goal_id = some gid ∧
        st'.goal_progress.lookup gid = some p' ∧
        (r = .advance ↔ p'.has_more_questions = true) ∧
        (r = .markComplete ↔ p'.has_more_questions = false) ∧
        (p'.has_more_questions = true →
          ∀ st'', advance_to_next_question st' = .ok st'' →
            ∃ p'', st''.goal_progress.lookup gid = some p'' ∧
              p''.current_question_index = p'.current_question_index + 1 ∧
              ∃ q2, st''.current_question = some q2 ∧ q2.exchanges = 0) ∧
        (p'.has_more_questions = false →
          (mark_goal_complete gid st').completed_goal_ids =
              st'.completed_goal_ids ++ [gid] ∧
            (∃ pc, (mark_goal_complete gid st').goal_progress.lookup gid = some pc ∧
              pc.completed = true) ∧
            (mark_goal_complete gid st').current_goal_id = none ∧
            (mark_goal_complete gid st').current_question = none ∧
            (check_more_goals (mark_goal_complete gid st') = true ↔
              (mark_goal_complete gid st').learning_goals.filter
                (fun g => g.id ∉ (mark_goal_complete gid st').completed_goal_ids) ≠ []) ∧
            GraphStep (.markComplete, st')
              ((if check_more_goals (mark_goal_complete gid st')
                then .selectGoal else .summarize), mark_goal_complete gid st'))) := by
  have hinvS : TutorInv st := reachable_inv hreach
  have hinv' : TutorInv st' := inv_evaluate hok hinvS
  rcases evaluate_and_route_ok hok with ⟨hm, hr, ev0, hev0, hst'⟩ | ⟨hm, ev1, hparse, hafter⟩
  · have heveq : ev = ev0 := by
      subst hst'
      exact (Option.some.inj (show some ev0 = some ev from hev)).symm
    have hres : ev.is_resolved = false := by
      rw [from_score_default_ok 0 "No response found" le_rfl (by norm_num)] at hev0
      cases hev0
      rw [heveq]
      norm_num
    constructor
    · intro _
      refine ⟨hr, ?_⟩
      intro gid p p' hp hp'
      subst hst'
      have hp'' : st.goal_progress.lookup gid = some p' := hp'
      rw [hp] at hp''
      cases hp''
      rfl
    · intro htrue
      rw [hres] at htrue
      cases htrue
  · obtain ⟨q, point, hq, hpoint, hst', hroutF, hroutT⟩ := evaluate_route_after_ok hafter
    have hev1 : ev1 = ev := by
      rw [hst'] at hev
      exact Option.some.inj (show some ev1 = some ev from hev)
    subst hev1
    have hgid : st.current_goal_id = some point.goal_id :=
      mkUnderstandingPoint_ok_goal hpoint
    constructor
    · intro hfalse
      refine ⟨hroutF hfalse, ?_⟩
      intro gid p p' hp hp'
      rw [hst'] at hp'
      obtain ⟨p0, hp0, hf⟩ := (evalUpdatedState_frame ev1 point q st).2 gid p' hp'
      rw [hp] at hp0
      cases hp0
      exact hf.2.2.2
    · intro htrue
      obtain ⟨p', hp', hr⟩ := hroutT htrue
      have hcg' : st'.current_goal_id = some point.goal_id := by
        rw [hst']
        exact hgid
      have hlk' : st'.goal_progress.lookup point.goal_id = some p' := by
        rw [hst']
        exact hp'
      refine ⟨point.goal_id, p', hcg', hlk', ?_, ?_, ?_, ?_⟩
      · rw [hr]
        cases hhm : p'.has_more_questions <;> simp [hhm]
      · rw [hr]
        cases hhm : p'.has_more_questions <;> simp [hhm]
      · intro hhm st'' hadv
        obtain ⟨gid2, p2, hcg2, hlk2, hst''⟩ := advance_to_next_question_ok hadv
        rw [hcg'] at hcg2
        cases hcg2
        rw [hlk'] at hlk2
        cases hlk2
        subst hst''
        have hmore2 : (markCurrentResolved p').has_more_questions = true := by
          rw [markCurrentResolved_has_more]
          exact hhm
        obtain ⟨hidx, q2, hq2, hq2mem⟩ := advance_of_has_more hmore2
        refine ⟨((markCurrentResolved p').advance_to_next_question).1, ?_, ?_, q2, ?_, ?_⟩
        · show (alUpdate _ _ st'.goal_progress).lookup _ = _
          rw [lookup_alUpdate_self, hlk']
          rfl
        · rw [hidx, markCurrentResolved_index]
        · exact hq2
        · obtain ⟨q3, hq3mem, hq3ex⟩ :=
            markCurrentResolved_questions_exchanges p' q2 hq2mem
          rw [hq3ex]
          exact hinv'.exchanges_zero (point.goal_id, p') (lookup_mem _ _ _ hlk') q3 hq3mem
      · intro hhmf
        have hnotc := hinv'.cur_not_completed point.goal_id hcg'
        have hshape := mark_goal_complete_shape hlk' hnotc
        refine ⟨?_, ⟨markCurrentResolved { p' with completed := true }, ?_,
          markCurrentResolved_completed _⟩, ?_, ?_, ?_, ?_⟩
        · rw [hshape]
        · rw [hshape]
          show (alUpdate _ _ st'.goal_progress).lookup _ = _
          rw [lookup_alUpdate_self, hlk']
          rfl
        · rw [hshape]
        · rw [hshape]
        · simp [check_more_goals]
        · exact GraphStep.markComplete point.goal_id st' hcg'

instance : Inhabited TutorState :=
  ⟨{ learning_goals := [], goal_progress := [], completed_goal_ids := [],
     current_goal_id := none, current_question := none, latest_evaluation := none,
     understanding_trajectory := [], messages := [] }⟩

instance : Inhabited Route := ⟨.socratic⟩

/-- The concrete run used to witness C2: create a session on `demo_goals`
(the Generator output failing to decode, so the fallback question is used),
answer once, and evaluate that answer with score 0.3. -/
def c2w_st1 : TutorState := select_next_goal (initialize_session demo_goals "M")

def c2w_st2 : TutorState := (generate_starter_questions none c2w_st1).toOption.getD default

def c2w_st3 : TutorState := (present_question "my answer" c2w_st2).toOption.getD default

def c2w_pair : Route × TutorState :=
  (evaluate_and_route (some (.obj [("score", .num (Rat.divInt 3 10))])) c2w_st3).toOption.getD default

/-- C2 witness: on the concrete run, a 0.3-scored reply routes back to the
Socratic loop. -/
theorem claim_C2_witness :
    evaluate_and_route (some (.obj [("score", .num (Rat.divInt 3 10))])) c2w_st3 =
        .ok (c2w_pair.1, c2w_pair.2) ∧
      c2w_pair.1 = .socratic := by
  have hok : evaluate_and_route (some (.obj [("score", .num (Rat.divInt 3 10))])) c2w_st3 =
      .ok (c2w_pair.1, c2w_pair.2) := by rfl
  have hreach : ReachableConfig demo_goals "M" (.evaluate, c2w_st3) :=
    Relation.ReflTransGen.tail
      (Relation.ReflTransGen.tail
        (Relation.ReflTransGen.tail Relation.ReflTransGen.refl
          (GraphStep.select (initialize_session demo_goals "M")))
        (GraphStep.genQuestions none c2w_st1 c2w_st2 (by rfl)))
      (GraphStep.present "my answer" c2w_st2 c2w_st3 (by rfl))
  have hev : c2w_pair.2.latest_evaluation =
      some ⟨Rat.divInt 3 10, "", [], [], false⟩ := by rfl
  exact ⟨hok, ((claim_C2 hreach hok hev).1 (by rfl)).1⟩

theorem filterMapId_eq (l : List (Option ℚ)) :
    l.filterMap id = (l.filter (fun v => v.isSome)).map (fun v => v.getD 0) := by
  induction l with
  | nil => rfl
  | cons a t ih => cases a <;> simp [ih]

theorem summary_average_eq_meanOfNonNull (vals : List (Option ℚ)) :
    summary_average (vals.filterMap id) = meanOfNonNull vals := by
  unfold summary_average meanOfNonNull
  dsimp only
  rw [filterMapId_eq]

theorem filterMap_eq_map_filterMap_id (gp : List (String × GoalProgress))
    (g : String × GoalProgress → Option ℚ) :
    gp.filterMap g = (gp.map g).filterMap id := by
  rw [List.filterMap_map]
  rfl

/-- The concrete goal map for the C8 instances: one goal whose trajectory
collected the misconceptions `"b"`, then `"a"`, then `"b"` again. -/
def c8_progress : List (String × GoalProgress) :=
  [("g1",
    { goal_id := "g1"
      goal_description := "demo"
      trajectory :=
        [{ goal_id := "g1", question_index := 0, exchange_number := 1,
           student_message := "m1", understanding_score := 0,
           evaluation_notes := "", misconceptions := ["b"], breakthroughs := [] },
         { goal_id := "g1", question_index := 0, exchange_number := 2,
           student_message := "m2", understanding_score := 0,
           evaluation_notes := "", misconceptions := ["a", "b"], breakthroughs := [] }] })]

/-- C8 counterexample: `list(set(all_misconceptions))[:10]` is not ordered
by first occurrence in the trajectory.  With collected misconceptions
`["b", "a", "b"]`, the set may well iterate as `["a", "b"]` (CPython's set
order is string-hash dependent and unspecified), and the resulting key list
`["a", "b"]` differs from the first-occurrence order `["b", "a"]`. -/
theorem claim_C8_counterexample :
    isPySetList (summary_all_misconceptions c8_progress) ["a", "b"] ∧
      summary_key_insights ["a", "b"] ≠
        (dedupFirst (summary_all_misconceptions c8_progress)).take 10 := by
  constructor
  · decide
  · decide

/-- C8 amended: `key_misconceptions` / `key_breakthroughs` are *some*
deduplication of the misconceptions/breakthroughs collected across the
whole trajectory, truncated to at most 10, in the unspecified iteration
order of a Python set — not necessarily first-occurrence order (see the
counterexample); and the average initial/final understanding is the mean
over only the goals whose corresponding value is non-null, nulls excluded
rather than treated as zero. -/
theorem claim_C8 (gp : List (String × GoalProgress)) (outM outB : List String)
    (hM : isPySetList (summary_all_misconceptions gp) outM)
    (hB : isPySetList (summary_all_breakthroughs gp) outB) :
    ((summary_key_insights outM).Nodup ∧ (summary_key_insights outM).length ≤ 10 ∧
      ∀ a ∈ summary_key_insights outM, a ∈ summary_all_misconceptions gp) ∧
    ((summary_key_insights outB).Nodup ∧ (summary_key_insights outB).length ≤ 10 ∧
      ∀ a ∈ summary_key_insights outB, a ∈ summary_all_breakthroughs gp) ∧
    summary_average (summary_initial_scores gp) =
      meanOfNonNull (gp.map (fun e => e.2.initial_understanding)) ∧
    summary_average (summary_final_scores gp) =
      meanOfNonNull (gp.map (fun e => e.2.final_understanding)) := by
  have keyprops : ∀ xs out, isPySetList xs out →
      (summary_key_insights out).Nodup ∧ (summary_key_insights out).length ≤ 10 ∧
        ∀ a ∈ summary_key_insights out, a ∈ xs := by
    intro xs out h
    refine ⟨(List.take_sublist 10 out).nodup h.1, ?_, ?_⟩
    · rw [summary_key_insights, List.length_take]
      exact min_le_left _ _
    · intro a ha
      exact h.2.2 a (List.take_subset 10 out ha)
  refine ⟨keyprops _ _ hM, keyprops _ _ hB, ?_, ?_⟩
  · rw [summary_initial_scores, filterMap_eq_map_filterMap_id,
      summary_average_eq_meanOfNonNull]
  · rw [summary_final_scores, filterMap_eq_map_filterMap_id,
      summary_average_eq_meanOfNonNull]

/-- C8 witness: the amended statement at the concrete goal map, with the
hash-order `["a", "b"]` for misconceptions and no breakthroughs. -/
theorem claim_C8_witness :
    ((summary_key_insights ["a", "b"]).Nodup ∧
      (summary_key_insights ["a", "b"]).length ≤ 10 ∧
      ∀ a ∈ summary_key_insights ["a", "b"],
        a ∈ summary_all_misconceptions c8_progress) ∧
    ((summary_key_insights []).Nodup ∧ (summary_key_insights []).length ≤ 10 ∧
      ∀ a ∈ summary_key_insights ([] : List String),
        a ∈ summary_all_breakthroughs c8_progress) ∧
    summary_average (summary_initial_scores c8_progress) =
      meanOfNonNull (c8_progress.map (fun e => e.2.initial_understanding)) ∧
    summary_average (summary_final_scores c8_progress) =
      meanOfNonNull (c8_progress.map (fun e => e.2.final_understanding)) :=
  claim_C8 c8_progress ["a", "b"] [] (by decide) (by decide)
